import Mathlib

/-!
Verification development for the contract-analysis pipeline repository.

The repository threads a single mutable state record through four stages
(Parser, Legal, Risk, Coordinator), each of which delegates to an external
text-generation capability and coerces its textual response into a typed
output.  This file gives a shallow embedding of the state model
(src/core/state.py), the stage protocol (src/core/base_agent.py), the four
agents (src/agents/*.py) and the orchestrator (src/core/orchestrator.py),
and proves the stated properties about them.

Modelling conventions:
* Python in-place mutation plus exceptions is modelled by the monad
  `PyM a := ContractState -> Except Exc a × ContractState`, in which state
  updates persist across a raised exception (as they do for a mutable dict).
* `datetime.utcnow()` and `uuid.uuid4()` draws are modelled by a ghost
  counter field `clock` in the state; each draw returns the counter and
  increments it.
* Python floats appearing in the repository are all exactly representable
  decimals, and are modelled as exact decimals `m * 10 ^ (-d)` in canonical
  form (see `Json.num` and `norm10`), so that numeric equality is
  structural equality.
* `json.loads` is modelled by an executable JSON reader `Json.parse`
  (objects, arrays, strings with escapes, decimal numbers, literals; the
  non-finite extensions NaN/Infinity and surrogate-pair combining are not
  modelled).  Python dict semantics for duplicate keys (last value wins,
  first position kept) are reproduced by `dedupKeys`.
-/
/-- JSON values, as produced by the Python `json` module.  A number
`num m d` denotes the decimal `m * 10 ^ (-d)`; numbers are kept in the
canonical form produced by `norm10` (no trailing factor of ten in `m`
while `d > 0`), so two equal decimals have equal representations. -/
inductive Json where
  | null : Json
  | bool (b : Bool) : Json
  | num (m : ℤ) (d : ℕ) : Json
  | str (s : String) : Json
  | arr (elems : List Json) : Json
  | obj (fields : List (String × Json)) : Json

/-- Canonicalise a decimal `m * 10 ^ (-d)`. -/
def norm10 : ℤ → ℕ → ℤ × ℕ
  | m, 0 => (m, 0)
  | m, d + 1 => if m % 10 = 0 then norm10 (m / 10) d else (m, d + 1)

/-- Build a canonical JSON number from mantissa and decimal shift. -/
def Json.mkNum (m : ℤ) (d : ℕ) : Json :=
  let p := norm10 m d
  Json.num p.1 p.2

/-- An integer as a JSON number (used for Python `len(...)` results). -/
def Json.ofInt (n : ℤ) : Json := Json.num n 0

/-- The two brace characters, written via escapes. -/
def lbrace : Char := '\x7b'

def rbrace : Char := '\x7d'

/-- JSON whitespace characters (RFC 8259, as accepted by `json.loads`). -/
def jsonWs (c : Char) : Bool :=
  c = ' ' || c = '\t' || c = '\n' || c = '\r'

def skipWs : List Char → List Char
  | [] => []
  | c :: cs => if jsonWs c then skipWs cs else c :: cs

def hexVal (c : Char) : Option Nat :=
  if '0' ≤ c ∧ c ≤ '9' then some (c.toNat - '0'.toNat)
  else if 'a' ≤ c ∧ c ≤ 'f' then some (c.toNat - 'a'.toNat + 10)
  else if 'A' ≤ c ∧ c ≤ 'F' then some (c.toNat - 'A'.toNat + 10)
  else none

/-- Read the remainder of a JSON string literal (the opening quote has been
consumed); returns the decoded string and the rest of the input.  Raw
control characters below 0x20 are rejected, as in strict-mode
`json.loads`. -/
def parseJStr : List Char → Option (String × List Char)
  | [] => none
  | '"' :: rest => some ("", rest)
  | '\\' :: esc =>
    match esc with
    | '"' :: rest => (parseJStr rest).map (fun p => (⟨'"' :: p.1.data⟩, p.2))
    | '\\' :: rest => (parseJStr rest).map (fun p => (⟨'\\' :: p.1.data⟩, p.2))
    | '/' :: rest => (parseJStr rest).map (fun p => (⟨'/' :: p.1.data⟩, p.2))
    | 'b' :: rest => (parseJStr rest).map (fun p => (⟨'\x08' :: p.1.data⟩, p.2))
    | 'f' :: rest => (parseJStr rest).map (fun p => (⟨'\x0c' :: p.1.data⟩, p.2))
    | 'n' :: rest => (parseJStr rest).map (fun p => (⟨'\n' :: p.1.data⟩, p.2))
    | 'r' :: rest => (parseJStr rest).map (fun p => (⟨'\r' :: p.1.data⟩, p.2))
    | 't' :: rest => (parseJStr rest).map (fun p => (⟨'\t' :: p.1.data⟩, p.2))
    | 'u' :: h1 :: h2 :: h3 :: h4 :: rest =>
      match hexVal h1, hexVal h2, hexVal h3, hexVal h4 with
      | some a, some b, some c, some d =>
        (parseJStr rest).map
          (fun p => (⟨Char.ofNat (a * 4096 + b * 256 + c * 16 + d) :: p.1.data⟩, p.2))
      | _, _, _, _ => none
    | _ => none
  | c :: rest =>
    if c.toNat < 32 then none
    else (parseJStr rest).map (fun p => (⟨c :: p.1.data⟩, p.2))

def takeDigits : List Char → List Char × List Char
  | [] => ([], [])
  | c :: cs =>
    if c.isDigit then
      let p := takeDigits cs
      (c :: p.1, p.2)
    else ([], c :: cs)

def digitsVal (ds : List Char) : Nat :=
  ds.foldl (fun acc c => acc * 10 + (c.toNat - '0'.toNat)) 0

/-- Read a JSON number following the grammar of the Python scanner regex
`(-?(?:0|[1-9]\d*))(\.\d+)?([eE][-+]?\d+)?`: the fraction and exponent are
consumed only when complete, otherwise the number ends before them. -/
def parseJNum (cs : List Char) : Option (Json × List Char) :=
  let signed : Bool × List Char :=
    match cs with
    | '-' :: r => (true, r)
    | _ => (false, cs)
  let neg := signed.1
  let afterSign := signed.2
  let intPart : Option (List Char × List Char) :=
    match afterSign with
    | '0' :: r => some (['0'], r)
    | c :: r =>
      if c.isDigit then
        let p := takeDigits r
        some (c :: p.1, p.2)
      else none
    | [] => none
  match intPart with
  | none => none
  | some (ids, rest1) =>
    let fracPart : List Char × List Char :=
      match rest1 with
      | '.' :: r =>
        match takeDigits r with
        | ([], _) => ([], rest1)
        | (ds, r2) => (ds, r2)
      | _ => ([], rest1)
    let fds := fracPart.1
    let rest2 := fracPart.2
    let expPart : ℤ × List Char :=
      match rest2 with
      | e :: r =>
        if e = 'e' ∨ e = 'E' then
          let esigned : Bool × List Char :=
            match r with
            | '-' :: r2 => (true, r2)
            | '+' :: r2 => (false, r2)
            | _ => (false, r)
          match takeDigits esigned.2 with
          | ([], _) => (0, rest2)
          | (ds, r3) =>
            ((if esigned.1 then -(digitsVal ds : ℤ) else (digitsVal ds : ℤ)), r3)
        else (0, rest2)
      | [] => (0, rest2)
    let m0 : ℤ := if neg then -(digitsVal (ids ++ fds) : ℤ) else (digitsVal (ids ++ fds) : ℤ)
    let e := expPart.1
    let value : Json :=
      if 0 ≤ e then Json.mkNum (m0 * (10 : ℤ) ^ e.toNat) fds.length
      else Json.mkNum m0 (fds.length + (-e).toNat)
    some (value, expPart.2)

/-- Python dict construction from a member list: a duplicate key keeps its
first position but takes its last value. -/
def insertPair : List (String × Json) → String × Json → List (String × Json)
  | [], p => [p]
  | (k, v) :: rest, p =>
    if k = p.1 then (k, p.2) :: rest else (k, v) :: insertPair rest p

def dedupKeys (ps : List (String × Json)) : List (String × Json) :=
  ps.foldl insertPair []

/-- Requests of the fuel-indexed JSON reader: a value, the members of an
object (after at least one is known to follow), the member list tail, an
array element, or the element list tail. -/
inductive PReq where
  | val (cs : List Char)
  | pair (cs : List Char) (acc : List (String × Json))
  | tail (cs : List Char) (acc : List (String × Json))
  | elem (cs : List Char) (acc : List Json)
  | etail (cs : List Char) (acc : List Json)

def parseF : Nat → PReq → Option (Json × List Char)
  | 0, _ => none
  | fuel + 1, .val cs =>
    match skipWs cs with
    | c :: rest =>
      if c = lbrace then
        match skipWs rest with
        | d :: rest2 =>
          if d = rbrace then some (Json.obj [], rest2)
          else parseF fuel (.pair (d :: rest2) [])
        | [] => none
      else if c = '[' then
        match skipWs rest with
        | ']' :: rest2 => some (Json.arr [], rest2)
        | other => parseF fuel (.elem other [])
      else if c = '"' then
        (parseJStr rest).map (fun p => (Json.str p.1, p.2))
      else
        match c :: rest with
        | 't' :: 'r' :: 'u' :: 'e' :: r => some (Json.bool true, r)
        | 'f' :: 'a' :: 'l' :: 's' :: 'e' :: r => some (Json.bool false, r)
        | 'n' :: 'u' :: 'l' :: 'l' :: r => some (Json.null, r)
        | other => parseJNum other
    | [] => none
  | fuel + 1, .pair cs acc =>
    match cs with
    | '"' :: rest =>
      match parseJStr rest with
      | some (k, r1) =>
        match skipWs r1 with
        | ':' :: r2 =>
          match parseF fuel (.val r2) with
          | some (v, r3) => parseF fuel (.tail r3 (acc ++ [(k, v)]))
          | none => none
        | _ => none
      | none => none
    | _ => none
  | fuel + 1, .tail cs acc =>
    match skipWs cs with
    | c :: rest =>
      if c = ',' then parseF fuel (.pair (skipWs rest) acc)
      else if c = rbrace then some (Json.obj (dedupKeys acc), rest)
      else none
    | [] => none
  | fuel + 1, .elem cs acc =>
    match parseF fuel (.val cs) with
    | some (v, r) => parseF fuel (.etail r (acc ++ [v]))
    | none => none
  | fuel + 1, .etail cs acc =>
    match skipWs cs with
    | c :: rest =>
      if c = ',' then parseF fuel (.elem rest acc)
      else if c = ']' then some (Json.arr acc, rest)
      else none
    | [] => none

/-- Model of `json.loads`: parse one JSON value and require only whitespace
after it, otherwise fail (Python raises `JSONDecodeError: Extra data`). -/
def Json.parse (s : String) : Option Json :=
  match parseF (4 * s.length + 16) (.val s.data) with
  | some (j, rest) => if skipWs rest = [] then some j else none
  | none => none

/-! ### The two extraction regexes of `_parse_crew_result`

`re.search(r'```json\s*(\{.*?\})\s*```', text, re.DOTALL)` and
`re.search(r'\{[^{}]*(?:\{[^{}]*\}[^{}]*)*\}', text, re.DOTALL)`,
modelled by direct scans with the same match semantics. -/
/-- Python `\s` (the ASCII portion). -/
def pyWsChar (c : Char) : Bool :=
  c = ' ' || c = '\t' || c = '\n' || c = '\r' || c = '\x0c' || c = '\x0b'

def skipWsPy : List Char → List Char
  | [] => []
  | c :: cs => if pyWsChar c then skipWsPy cs else c :: cs

def backticks3 : List Char := '`' :: '`' :: '`' :: []

def fenceOpen : List Char := '`' :: '`' :: '`' :: 'j' :: 's' :: 'o' :: 'n' :: []

/-- Lazy search for the closing `}` of the fenced-block group: the first
position holding `}` that is followed by whitespace and three backticks
ends the group; any other character (including other braces) is consumed
by the lazy `.*?`. -/
def lazyFenceEnd : List Char → List Char → Option (List Char)
  | [], _ => none
  | c :: r, acc =>
    if c = rbrace ∧ List.isPrefixOf backticks3 (skipWsPy r) then
      some ((c :: acc).reverse)
    else lazyFenceEnd r (c :: acc)

/-- Attempt the fenced-block pattern at one occurrence of the opening
literal; `cs` is the input just after `‹backtick›‹backtick›‹backtick›json`. -/
def fenceFrom (cs : List Char) : Option (List Char) :=
  match skipWsPy cs with
  | c :: r2 => if c = lbrace then lazyFenceEnd r2 [c] else none
  | [] => none

def goFence : List Char → Option String
  | [] => none
  | c :: r =>
    if List.isPrefixOf fenceOpen (c :: r) then
      match fenceFrom (List.drop 7 (c :: r)) with
      | some g => some (String.mk g)
      | none => goFence r
    else goFence r

/-- Model of the markdown-fence regex search: the group captured at the
first occurrence of the tagged fence that completes a match. -/
def findFencedJson (s : String) : Option String :=
  goFence s.data

/-- Attempt the balanced-brace pattern at a position whose head is `{`:
scan forward tracking one level of nesting; a `}` at depth one ends the
match, a `{` at depth two makes the attempt fail. -/
def braceAux : List Char → Nat → List Char → Option (List Char)
  | [], _, _ => none
  | c :: r, d, acc =>
    if c = lbrace then
      if d = 1 then braceAux r 2 (c :: acc) else none
    else if c = rbrace then
      if d = 1 then some ((c :: acc).reverse) else braceAux r 1 (c :: acc)
    else braceAux r d (c :: acc)

def braceFrom : List Char → Option (List Char)
  | [] => none
  | c :: r => if c = lbrace then braceAux r 1 [c] else none

def goBrace : List Char → Option String
  | [] => none
  | c :: r =>
    if c = lbrace then
      match braceFrom (c :: r) with
      | some sp => some (String.mk sp)
      | none => goBrace r
    else goBrace r

/-- Model of the brace-substring regex search: the first position from
which the one-level balanced pattern matches. -/
def findBraceSpan (s : String) : Option String :=
  goBrace s.data

/-! ### Data model (src/core/state.py) -/
/-- `AgentType` enumeration. -/
inductive AgentType where
  | coordinator | parser | legal | risk
deriving DecidableEq

/-- The `.value` string of an `AgentType`. -/
def agentValue : AgentType → String
  | .coordinator => "coordinator"
  | .parser => "parser"
  | .legal => "legal"
  | .risk => "risk"

/-- `MessageType` enumeration. -/
inductive MessageType where
  | task_assignment | analysis_result | error | completion | request_info
deriving DecidableEq

/-- `ProcessingStatus` enumeration. -/
inductive ProcessingStatus where
  | pending | parsing | analyzing | risk_assessment | synthesizing
  | completed | failed
deriving DecidableEq

/-- The `.value` string of a `ProcessingStatus`. -/
def statusValue : ProcessingStatus → String
  | .pending => "pending"
  | .parsing => "parsing"
  | .analyzing => "analyzing"
  | .risk_assessment => "risk_assessment"
  | .synthesizing => "synthesizing"
  | .completed => "completed"
  | .failed => "failed"

/-- An error entry as appended by `BaseContractAgent.add_error`:
timestamp, originating agent, message and a structured detail mapping. -/
structure ErrorRecord where
  timestamp : ℕ
  agent : AgentType
  message : String
  details : Json

/-- A Python exception value: its class name, its message, and any error
records attached to it.  Every `raise` site in this repository constructs a
bare exception, so every constructed exception here carries
`records = []`; the field records whether a raised exception carries the
pipeline error list. -/
structure Exc where
  kind : String
  msg : String
  records : List ErrorRecord

/-- An `AgentMessage` (`create_agent_message`): the timestamp and the
uuid4 message id are modelled as draws from the ghost clock. -/
structure AgentMessage where
  from_agent : AgentType
  to_agent : Option AgentType
  message_type : MessageType
  content : Json
  timestamp : ℕ
  message_id : ℕ

/-- A processing-log line `[timestamp] [agent] message`, modelled as a
record of its three components. -/
structure LogEntry where
  timestamp : ℕ
  agent : AgentType
  message : String

/-- `ContractMetadata`.  `filename` is optional because
`ParserAgent.validate_input` explicitly tests it against `None`. -/
structure ContractMetadata where
  contract_id : String
  filename : Option String
  upload_timestamp : ℕ
  file_size : ℤ
  num_pages : Option ℤ

/-- `ParserOutput`: `raw_text` is always a string built by the agent, the
other fields take whatever JSON value `parsed_data.get` produced. -/
structure ParserOutput where
  raw_text : String
  structured_sections : Json
  metadata : Json
  extraction_confidence : Json

/-- `LegalAnalysis`, fields as filled by `LegalAgent.process`. -/
structure LegalAnalysis where
  key_terms : Json
  obligations : Json
  parties_involved : Json
  contract_type : Json
  jurisdiction : Json
  effective_date : Json
  termination_date : Json
  clauses_identified : Json

/-- `RiskAssessment`, fields as filled by `RiskAgent.process`. -/
structure RiskAssessment where
  overall_risk_score : Json
  risk_categories : Json
  critical_risks : Json
  recommendations : Json
  compliance_issues : Json

/-- `FinalReport`, fields as filled by `CoordinatorAgent.synthesize_report`. -/
structure FinalReport where
  executive_summary : Json
  detailed_analysis : Json
  risk_matrix : Json
  action_items : Json
  approval_recommendation : Json

/-- The shared `ContractState`.  The final three fields are ghost
instrumentation, not data of the Python record: `clock` numbers the
`utcnow()`/`uuid4()` draws, `completedAtWrites` counts the assignments to
`completed_at`, and `stagesStarted` records each entry into
`handle_processing` (the point where `current_agent` is assigned). -/
structure ContractState where
  contract_metadata : Option ContractMetadata
  status : ProcessingStatus
  current_agent : AgentType
  parser_output : Option ParserOutput
  legal_analysis : Option LegalAnalysis
  risk_assessment : Option RiskAssessment
  final_report : Option FinalReport
  messages : List AgentMessage
  errors : List ErrorRecord
  processing_logs : List LogEntry
  started_at : ℕ
  completed_at : Option ℕ
  user_instructions : Option String
  priority_level : String
  clock : ℕ
  completedAtWrites : ℕ
  stagesStarted : List AgentType

/-- `create_initial_state`: both `upload_timestamp` and `started_at` take
the same `utcnow()` draw (tick 0); the clock then stands at 1. -/
def createInitialState (contract_id : String) (filename : String)
    (file_size : ℤ) (user_instructions : Option String)
    (priority_level : String) : ContractState where
  contract_metadata := some
    { contract_id := contract_id
      filename := some filename
      upload_timestamp := 0
      file_size := file_size
      num_pages := none }
  status := .pending
  current_agent := .coordinator
  parser_output := none
  legal_analysis := none
  risk_assessment := none
  final_report := none
  messages := []
  errors := []
  processing_logs := []
  started_at := 0
  completed_at := none
  user_instructions := user_instructions
  priority_level := priority_level
  clock := 1
  completedAtWrites := 0
  stagesStarted := []

/-! ### Python execution monad

In-place mutation of the shared dict together with exception propagation:
a computation transforms the state and yields either a value or a raised
exception; mutations performed before a raise persist. -/
def PyM (α : Type) : Type := ContractState → Except Exc α × ContractState

instance : Monad PyM where
  pure a := fun s => (Except.ok a, s)
  bind m f := fun s =>
    match m s with
    | (Except.ok a, s1) => f a s1
    | (Except.error e, s1) => (Except.error e, s1)

/-- `raise e`. -/
def pyRaise {α : Type} (e : Exc) : PyM α := fun s => (Except.error e, s)

/-- `try: body except Exception as e: handler e`. -/
def pyTry {α : Type} (body : PyM α) (handler : Exc → PyM α) : PyM α :=
  fun s =>
    match body s with
    | (Except.ok a, s1) => (Except.ok a, s1)
    | (Except.error e, s1) => handler e s1

/-- Read the shared state. -/
def getS : PyM ContractState := fun s => (Except.ok s, s)

/-- Mutate the shared state in place. -/
def modifyS (f : ContractState → ContractState) : PyM Unit :=
  fun s => (Except.ok (), f s)

/-- One `utcnow()`/`uuid4()` draw from the ghost clock. -/
def tick : PyM ℕ := fun s => (Except.ok s.clock, { s with clock := s.clock + 1 })

/-- Run a pure Python expression that may raise. -/
def liftExc {α : Type} (x : Except Exc α) : PyM α := fun s => (x, s)

/-! ### Python built-in behaviours on JSON values -/
/-- First binding of a key (keys are unique after `dedupKeys`). -/
def lookupField : List (String × Json) → String → Option Json
  | [], _ => none
  | (k, v) :: r, key => if k = key then some v else lookupField r key

def Json.isStr : Json → Bool
  | .str _ => true
  | _ => false

def Json.isObj : Json → Bool
  | .obj _ => true
  | _ => false

/-- Whether `len(x)` is defined: dicts, lists and strings are sized. -/
def Json.hasLen : Json → Bool
  | .obj _ => true
  | .arr _ => true
  | .str _ => true
  | _ => false

/-- Whether `", ".join(x)` succeeds: any string, any dict (its keys are
strings), or a list whose elements are all strings. -/
def Json.joinable : Json → Bool
  | .str _ => true
  | .obj _ => true
  | .arr xs => xs.all Json.isStr
  | _ => false

/-- Whether `x[:5]` succeeds: lists and strings are sliceable. -/
def Json.sliceable : Json → Bool
  | .arr _ => true
  | .str _ => true
  | _ => false

/-- Python truthiness of a JSON value. -/
def pyFalsy (j : Json) : Bool :=
  match j with
  | .null => true
  | .bool b => !b
  | .num m _ => m = 0
  | .str s => s.isEmpty
  | .arr xs => xs.isEmpty
  | .obj fs => fs.isEmpty

/-- `AttributeError` from `.get` on a non-dict (the raised exception texts
of the built-in helpers are abbreviated; only their class and bareness
matter to the state record). -/
def attrNoGetErr : Exc :=
  { kind := "AttributeError", msg := "object has no attribute get", records := [] }

def lenErr : Exc := { kind := "TypeError", msg := "object has no len", records := [] }

def joinErr : Exc := { kind := "TypeError", msg := "join argument not an iterable of str", records := [] }

def keysErr : Exc := { kind := "AttributeError", msg := "object has no attribute keys", records := [] }

def sliceErr : Exc := { kind := "TypeError", msg := "object cannot be sliced", records := [] }

def fmtErr : Exc := { kind := "TypeError", msg := "format_list item error", records := [] }

/-- `x.get(key, dflt)`: succeeds on a dict, raises `AttributeError` on any
other value. -/
def dictGet (j : Json) (key : String) (dflt : Json) : Except Exc Json :=
  match j with
  | .obj fs => Except.ok ((lookupField fs key).getD dflt)
  | _ => Except.error attrNoGetErr

/-- `len(x)`: length of a dict, list or string; `TypeError` otherwise. -/
def pyLen (j : Json) : Except Exc ℤ :=
  match j with
  | .obj fs => Except.ok fs.length
  | .arr xs => Except.ok xs.length
  | .str s => Except.ok s.length
  | _ => Except.error lenErr

/-- Exception behaviour of `", ".join(x)`. -/
def pyJoinOk (j : Json) : Except Exc Unit :=
  if j.joinable then Except.ok () else Except.error joinErr

/-- Exception behaviour of `x[:5]`. -/
def pySliceOk (j : Json) : Except Exc Unit :=
  if j.sliceable then Except.ok () else Except.error sliceErr

/-- Whether `CoordinatorAgent._format_list items key1 key2` runs without
raising: a falsy value returns at once; a truthy value must be a list
whose first five items are dicts (each is subject to `.get`). -/
def Json.formatable (j : Json) : Bool :=
  pyFalsy j ||
    (match j with
     | .arr xs => (xs.take 5).all Json.isObj
     | _ => false)

/-- Exception behaviour of `CoordinatorAgent._format_list`. -/
def pyFormatListOk (j : Json) : Except Exc Unit :=
  if j.formatable then Except.ok () else Except.error fmtErr

/-! ### Result coercion (`_parse_crew_result` of the three analysis agents
and `_parse_result` of the coordinator) -/
/-- The layered coercion, shared shape of the four agents: try a direct
parse of the whole text; on failure locate a tagged fenced block and parse
its captured group; otherwise locate the first balanced brace substring
and parse it.  A `json.loads` failure on a located candidate propagates to
the enclosing `except Exception` handler, which returns the fallback, so
a failed candidate parse skips the remaining strategy. -/
def parseCrewResult (fallback : String → Json) (result_str : String) : Json :=
  match Json.parse result_str with
  | some j => j
  | none =>
    match findFencedJson result_str with
    | some inner => (Json.parse inner).getD (fallback result_str)
    | none =>
      match findBraceSpan result_str with
      | some span => (Json.parse span).getD (fallback result_str)
      | none => fallback result_str

/-- Python `text.split()` (split on whitespace, drop empty words). -/
def pyWords (s : String) : List String :=
  (s.split fun c => c.isWhitespace).filter fun w => ¬ w.isEmpty

/-- `ParserAgent._create_fallback_structure`. -/
def parserFallback (text : String) : Json :=
  Json.obj
    [ ("structured_sections", Json.obj [("Full Text", Json.str (text.take 500))])
    , ("metadata", Json.obj
        [ ("num_pages", Json.ofInt 1)
        , ("word_count", Json.ofInt (pyWords text).length)
        , ("language", Json.str "en")
        , ("document_quality", Json.str "medium") ])
    , ("extraction_confidence", Json.num 7 1) ]

/-- `LegalAgent._create_fallback_analysis`. -/
def legalFallbackJson : Json :=
  Json.obj
    [ ("contract_type", Json.str "Unknown")
    , ("parties_involved", Json.arr [Json.str "Unknown"])
    , ("key_terms", Json.arr [])
    , ("obligations", Json.arr [])
    , ("clauses_identified", Json.arr [])
    , ("jurisdiction", Json.null)
    , ("effective_date", Json.null)
    , ("termination_date", Json.null) ]

/-- `RiskAgent._create_fallback_assessment`. -/
def riskFallbackJson : Json :=
  Json.obj
    [ ("overall_risk_score", Json.num 5 0)
    , ("risk_categories", Json.obj
        [ ("financial", Json.obj [("score", Json.num 5 0), ("description", Json.str "Unable to assess")])
        , ("legal", Json.obj [("score", Json.num 5 0), ("description", Json.str "Unable to assess")])
        , ("operational", Json.obj [("score", Json.num 5 0), ("description", Json.str "Unable to assess")])
        , ("compliance", Json.obj [("score", Json.num 5 0), ("description", Json.str "Unable to assess")]) ])
    , ("critical_risks", Json.arr [])
    , ("compliance_issues", Json.arr [])
    , ("recommendations", Json.arr [Json.str "Manual review recommended due to parsing issues"]) ]

/-- The default structure returned by `CoordinatorAgent._parse_result`
when parsing fails (its internal `raise ValueError` is caught by its own
`except`, which returns this value). -/
def coordFallback (result_str : String) : Json :=
  Json.obj
    [ ("executive_summary", Json.str (result_str.take 500))
    , ("detailed_analysis", Json.obj [])
    , ("risk_matrix", Json.obj [("overall_risk", Json.str "Medium")])
    , ("action_items", Json.arr [Json.str "Review raw output for details"])
    , ("approval_recommendation", Json.str "Requires Review") ]

/-- `CoordinatorAgent._parse_result`: the same three strategies with the
coordinator default as fallback.  Crew kickoff results are modelled as
text, so the `isinstance(result, dict)` branch is vacuous. -/
def coordParseResult (result_str : String) : Json :=
  parseCrewResult coordFallback result_str

/-- Modelled from the spec (section 4.2, Result Coercion): the claimed
algorithm in which the three strategies are attempted in order with the
first successful parse winning, and the fallback is used only when all
three strategies fail to produce a parsed value. -/
def coercionSpec (fallback : String → Json) (s : String) : Json :=
  match Json.parse s with
  | some j => j
  | none =>
    match (findFencedJson s).bind Json.parse with
    | some j => j
    | none =>
      match (findBraceSpan s).bind Json.parse with
      | some j => j
      | none => fallback s

/-! ### The built-in simulated document source
(`ParserAgent._get_document_content`) -/
/-- Python `str.lower` (ASCII portion). -/
def pyLower (s : String) : String := ⟨s.data.map Char.toLower⟩

/-- Python substring containment `needle in haystack`. -/
def listContains : List Char → List Char → Bool
  | [], n => n.isEmpty
  | c :: r, n => List.isPrefixOf n (c :: r) || listContains r n

def strContains (haystack needle : String) : Bool :=
  listContains haystack.data needle.data

/-- The built-in NDA document text returned by `_get_document_content` when
the lower-cased filename contains `nda`. -/
def ndaDocText : String :=
  "\nNON-DISCLOSURE AGREEMENT\n\nThis Non-Disclosure Agreement (the \"Agreement\") is entered into" ++
  " as of January 15, 2024, \nby and between TechCorp Inc., a Delaware corporation (\"Disclosing P" ++
  "arty\"), and \nDataSystems LLC, a Delaware limited liability company (\"Receiving Party\").\n\n" ++
  "WHEREAS, the parties wish to explore a potential business relationship;\nWHEREAS, in connection" ++
  " with such discussions, Disclosing Party may disclose certain \nconfidential and proprietary in" ++
  "formation to Receiving Party;\n\nNOW, THEREFORE, in consideration of the mutual covenants and a" ++
  "greements set forth herein, \nthe parties agree as follows:\n\n1. DEFINITIONS\n1.1 \"Confidenti" ++
  "al Information\" means any and all technical and non-technical information \ndisclosed by Discl" ++
  "osing Party to Receiving Party, including but not limited to: patents, \npatent applications, t" ++
  "rade secrets, proprietary information, designs, business plans, \nfinancial information, softwa" ++
  "re, customer lists, and any other information marked as confidential.\n\n1.2 \"Permitted Disclo" ++
  "sure\" means disclosure required by law, regulation, or court order, \nprovided that Receiving " ++
  "Party provides prompt written notice to Disclosing Party.\n\n2. OBLIGATIONS\n2.1 Receiving Part" ++
  "y agrees to:\n   a) Hold all Confidential Information in strict confidence\n   b) Not disclose " ++
  "Confidential Information to any third party without prior written consent\n   c) Use Confidenti" ++
  "al Information solely for evaluating the potential business relationship\n   d) Protect Confide" ++
  "ntial Information with the same degree of care used for its own confidential information\n\n2.2" ++
  " Disclosing Party retains all right, title, and interest in and to the Confidential Information" ++
  ".\n\n3. EXCLUSIONS\nConfidential Information does not include information that:\n   a) Is or be" ++
  "comes publicly available through no breach of this Agreement\n   b) Was rightfully in Receiving" ++
  " Party\x27s possession prior to disclosure\n   c) Is independently developed by Receiving Party" ++
  " without use of Confidential Information\n   d) Is rightfully obtained from a third party witho" ++
  "ut breach of confidentiality\n\n4. TERM AND TERMINATION\n4.1 This Agreement shall commence on t" ++
  "he effective date and continue for two (2) years.\n4.2 Either party may terminate this Agreemen" ++
  "t with thirty (30) days written notice.\n4.3 Upon termination, Receiving Party shall return or " ++
  "destroy all Confidential Information \nwithin thirty (30) days.\n\n5. LIABILITY AND INDEMNIFICA" ++
  "TION\n5.1 Receiving Party agrees to indemnify and hold harmless Disclosing Party from any damag" ++
  "es \nresulting from unauthorized disclosure or use of Confidential Information.\n5.2 Liability " ++
  "under this Agreement shall be limited to Five Hundred Thousand Dollars ($500,000).\n\n6. GENERA" ++
  "L PROVISIONS\n6.1 This Agreement shall be governed by the laws of the State of Delaware.\n6.2 T" ++
  "his Agreement constitutes the entire agreement between the parties.\n6.3 Any amendments must be" ++
  " in writing and signed by both parties.\n\nIN WITNESS WHEREOF, the parties have executed this A" ++
  "greement as of the date first written above.\n\nTechCorp Inc.                          DataSyst" ++
  "ems LLC\nBy: _____________________              By: _____________________\nName: John Smith    " ++
  "                    Name: Jane Doe\nTitle: CEO                              Title: President\nD" ++
  "ate: January 15, 2024                  Date: January 15, 2024\n"

/-- The built-in generic service-agreement text returned by
`_get_document_content` otherwise. -/
def serviceDocText : String :=
  "\nSERVICE AGREEMENT\n\nThis Service Agreement is made as of [Date] between [Company A] and [Com" ++
  "pany B].\n\n1. SERVICES: Provider agrees to deliver the following services...\n2. COMPENSATION:" ++
  " Client agrees to pay...\n3. TERM: This agreement shall commence on...\n4. TERMINATION: Either " ++
  "party may terminate...\n"

/-- `ParserAgent._get_document_content`: the document text is chosen from
the filename alone. -/
def getDocumentContent (filename : String) : String :=
  if strContains (pyLower filename) "nda" then ndaDocText else serviceDocText

/-! ### Base agent operations (src/core/base_agent.py) -/
/-- `log_processing_step`. -/
def logStep (a : AgentType) (msg : String) : PyM Unit := do
  let t ← tick
  modifyS fun s => { s with processing_logs := s.processing_logs ++ [⟨t, a, msg⟩] }

/-- `add_error` (a `None` detail mapping defaults to `{}`). -/
def addError (a : AgentType) (msg : String) (details : Option Json) : PyM Unit := do
  let t ← tick
  modifyS fun s =>
    { s with errors := s.errors ++ [⟨t, a, msg, details.getD (Json.obj [])⟩] }

/-- `send_message` via `create_agent_message`: a fresh timestamp and a
fresh uuid are drawn, and the message is appended. -/
def sendMessage (a : AgentType) (toAgent : Option AgentType)
    (mt : MessageType) (content : Json) : PyM Unit := do
  let ts ← tick
  let mid ← tick
  modifyS fun s =>
    { s with messages := s.messages ++ [⟨a, toAgent, mt, content, ts, mid⟩] }

/-- `update_status` (the old status is read only for logging). -/
def updateStatus (ns : ProcessingStatus) : PyM Unit :=
  modifyS fun s => { s with status := ns }

/-- Subscripting or attribute access on an optional value: raises the
given exception when the value is `None`. -/
def pySubscript {α : Type} (o : Option α) (err : Exc) : Except Exc α :=
  match o with
  | none => Except.error err
  | some x => Except.ok x

/-- Exception raised when a `None` value is subscripted. -/
def noneSubErr : Exc :=
  { kind := "TypeError", msg := "NoneType object is not subscriptable", records := [] }

/-- Exception raised by `filename.lower()` when `filename` is `None`. -/
def attrLowerErr : Exc :=
  { kind := "AttributeError", msg := "NoneType object has no attribute lower", records := [] }

/-! ### The four agents (src/agents/*.py) -/
/-- `ParserAgent.validate_input`. -/
def parserValidateInput (s : ContractState) : Bool :=
  match s.contract_metadata with
  | none => false
  | some md => md.filename.isSome

/-- `LegalAgent.validate_input`. -/
def legalValidateInput (s : ContractState) : Bool :=
  s.parser_output.isSome

/-- `RiskAgent.validate_input`. -/
def riskValidateInput (s : ContractState) : Bool :=
  s.legal_analysis.isSome

/-- `CoordinatorAgent.validate_input`: always true. -/
def coordValidateInput (_s : ContractState) : Bool := true

/-- Body of `ParserAgent.process` (its `try` block); `resp` is the
outcome of `parsing_crew.kickoff()`. -/
def parserProcessBody (resp : Except Exc String) : PyM Unit := do
  updateStatus .parsing
  let s ← getS
  let md ← liftExc (pySubscript s.contract_metadata noneSubErr)
  logStep .parser ("Starting document parsing for " ++ md.contract_id)
  let fn ← liftExc (pySubscript md.filename attrLowerErr)
  let raw_text := getDocumentContent fn
  logStep .parser "Executing parsing task"
  let result ← liftExc resp
  let parsed_data := parseCrewResult parserFallback result
  let sections ← liftExc (dictGet parsed_data "structured_sections" (Json.obj []))
  let metadata ← liftExc (dictGet parsed_data "metadata" (Json.obj []))
  let confidence ← liftExc (dictGet parsed_data "extraction_confidence" (Json.num 85 2))
  modifyS fun st => { st with parser_output := some ⟨raw_text, sections, metadata, confidence⟩ }
  let nSections ← liftExc (pyLen sections)
  sendMessage .parser (some .legal) .analysis_result
    (Json.obj [("sections_found", Json.ofInt nSections), ("confidence", confidence)])
  let n2 ← liftExc (pyLen sections)
  logStep .parser ("Parsing complete: " ++ toString n2 ++ " sections identified")

/-- `ParserAgent.process` with its own `except` clause. -/
def parserProcess (resp : Except Exc String) : PyM Unit :=
  pyTry (parserProcessBody resp) fun e => do
    addError .parser ("Parsing failed: " ++ e.msg) none
    pyRaise e

/-- Body of `LegalAgent.process`. -/
def legalProcessBody (resp : Except Exc String) : PyM Unit := do
  updateStatus .analyzing
  let s ← getS
  let _po ← liftExc (pySubscript s.parser_output
    { kind := "ValueError", msg := "Parser output not available", records := [] })
  let md ← liftExc (pySubscript s.contract_metadata noneSubErr)
  logStep .legal ("Starting legal analysis for " ++ md.contract_id)
  logStep .legal "Executing legal analysis task"
  let result ← liftExc resp
  let analysis_data := parseCrewResult (fun _ => legalFallbackJson) result
  let key_terms ← liftExc (dictGet analysis_data "key_terms" (Json.arr []))
  let obligations ← liftExc (dictGet analysis_data "obligations" (Json.arr []))
  let parties ← liftExc (dictGet analysis_data "parties_involved" (Json.arr []))
  let ctype ← liftExc (dictGet analysis_data "contract_type" (Json.str "Unknown"))
  let jurisdiction ← liftExc (dictGet analysis_data "jurisdiction" Json.null)
  let effective ← liftExc (dictGet analysis_data "effective_date" Json.null)
  let termination ← liftExc (dictGet analysis_data "termination_date" Json.null)
  let clauses ← liftExc (dictGet analysis_data "clauses_identified" (Json.arr []))
  let la : LegalAnalysis :=
    ⟨key_terms, obligations, parties, ctype, jurisdiction, effective, termination, clauses⟩
  modifyS fun st => { st with legal_analysis := some la }
  let nClauses ← liftExc (pyLen clauses)
  let nObls ← liftExc (pyLen obligations)
  sendMessage .legal (some .risk) .analysis_result
    (Json.obj [ ("clauses_found", Json.ofInt nClauses)
              , ("obligations_count", Json.ofInt nObls)
              , ("contract_type", ctype) ])
  let n2 ← liftExc (pyLen clauses)
  logStep .legal ("Legal analysis complete: " ++ toString n2 ++ " clauses analyzed")

/-- `LegalAgent.process` with its own `except` clause. -/
def legalProcess (resp : Except Exc String) : PyM Unit :=
  pyTry (legalProcessBody resp) fun e => do
    addError .legal ("Legal analysis failed: " ++ e.msg) none
    pyRaise e

/-- The post-parse half of `RiskAgent.process`: consume the coerced
result value and fill the risk assessment slot. -/
def riskProcessTail (risk_data : Json) : PyM Unit := do
  let score ← liftExc (dictGet risk_data "overall_risk_score" (Json.num 5 0))
  let cats ← liftExc (dictGet risk_data "risk_categories" (Json.obj []))
  let crit ← liftExc (dictGet risk_data "critical_risks" (Json.arr []))
  let recs ← liftExc (dictGet risk_data "recommendations" (Json.arr []))
  let comp ← liftExc (dictGet risk_data "compliance_issues" (Json.arr []))
  modifyS fun st => { st with risk_assessment := some ⟨score, cats, crit, recs, comp⟩ }
  let nCrit ← liftExc (pyLen crit)
  sendMessage .risk (some .coordinator) .analysis_result
    (Json.obj [ ("overall_risk_score", score)
              , ("critical_risks_count", Json.ofInt nCrit)
              , ("ready_for_synthesis", Json.bool true) ])
  logStep .risk "Risk assessment complete"

/-- Body of `RiskAgent.process`.  Building the task description evaluates
`", ".join(legal_analysis[\x27parties_involved\x27])`, which raises when the
stored value is not joinable. -/
def riskProcessBody (resp : Except Exc String) : PyM Unit := do
  updateStatus .risk_assessment
  let s ← getS
  let la ← liftExc (pySubscript s.legal_analysis
    { kind := "ValueError", msg := "Legal analysis not available", records := [] })
  let md ← liftExc (pySubscript s.contract_metadata noneSubErr)
  logStep .risk ("Starting risk assessment for " ++ md.contract_id)
  let _ ← liftExc (pyJoinOk la.parties_involved)
  logStep .risk "Executing risk assessment task"
  let result ← liftExc resp
  riskProcessTail (parseCrewResult (fun _ => riskFallbackJson) result)

/-- `RiskAgent.process` with its own `except` clause. -/
def riskProcess (resp : Except Exc String) : PyM Unit :=
  pyTry (riskProcessBody resp) fun e => do
    addError .risk ("Risk assessment failed: " ++ e.msg) none
    pyRaise e

/-- `x.keys()`: succeeds only on a dict. -/
def pyKeysOk (j : Json) : Except Exc Unit :=
  if j.isObj then Except.ok () else Except.error keysErr

/-- Exception raised by `.get` on a `None` stage output. -/
def attrGetErr : Exc :=
  { kind := "AttributeError", msg := "NoneType object has no attribute get", records := [] }

/-- `CoordinatorAgent._build_synthesis_context`: only its exception
behaviour affects the state record; the f-string evaluations are modelled
in source order. -/
def buildSynthesisContext : PyM Unit := do
  let s ← getS
  let _md ← liftExc (pySubscript s.contract_metadata noneSubErr)
  let pd ← liftExc (pySubscript s.parser_output attrGetErr)
  let ld ← liftExc (pySubscript s.legal_analysis attrGetErr)
  let rd ← liftExc (pySubscript s.risk_assessment attrGetErr)
  let _ ← liftExc (dictGet pd.metadata "num_pages" (Json.str "Unknown"))
  let _ ← liftExc (pyKeysOk pd.structured_sections)
  let _ ← liftExc (pyJoinOk ld.parties_involved)
  let _ ← liftExc (pyLen ld.key_terms)
  let _ ← liftExc (pyLen ld.obligations)
  let _ ← liftExc (pyFormatListOk ld.clauses_identified)
  let _ ← liftExc (pyLen rd.critical_risks)
  let _ ← liftExc (pyFormatListOk rd.critical_risks)
  let _ ← liftExc (pySliceOk rd.recommendations)
  pure ()

/-- `state["completed_at"] = datetime.utcnow().isoformat()`, counted by
the ghost field. -/
def writeCompletedAt : PyM Unit := do
  let t ← tick
  modifyS fun s =>
    { s with completed_at := some t, completedAtWrites := s.completedAtWrites + 1 }

/-- Body of `CoordinatorAgent.synthesize_report` (its `try` block). -/
def synthesizeReportBody (resp : Except Exc String) : PyM Unit := do
  updateStatus .synthesizing
  buildSynthesisContext
  logStep .coordinator "Executing synthesis task via Crew.AI"
  let result ← liftExc resp
  let report_data := coordParseResult result
  let es ← liftExc (dictGet report_data "executive_summary" (Json.str ""))
  let da ← liftExc (dictGet report_data "detailed_analysis" (Json.obj []))
  let rm ← liftExc (dictGet report_data "risk_matrix" (Json.obj []))
  let ai ← liftExc (dictGet report_data "action_items" (Json.arr []))
  let ar ← liftExc (dictGet report_data "approval_recommendation" (Json.str "Requires Review"))
  modifyS fun st => { st with final_report := some ⟨es, da, rm, ai, ar⟩ }
  updateStatus .completed
  writeCompletedAt
  sendMessage .coordinator none .completion
    (Json.obj [("message", Json.str "Contract analysis completed successfully")])
  logStep .coordinator "Final report synthesized successfully"

/-- `CoordinatorAgent.synthesize_report` with its own `except` clause. -/
def synthesizeReport (resp : Except Exc String) : PyM Unit :=
  pyTry (synthesizeReportBody resp) fun e => do
    addError .coordinator ("Failed to synthesize report: " ++ e.msg)
      (some (Json.obj [("exception_type", Json.str e.kind)]))
    pyRaise e

/-- `CoordinatorAgent.process`: synthesize when all three outputs are
present, otherwise log the current status and leave the state unchanged. -/
def coordProcess (resp : Except Exc String) : PyM Unit := do
  let s ← getS
  if s.parser_output.isSome && s.legal_analysis.isSome && s.risk_assessment.isSome then do
    logStep .coordinator "All agent outputs available, synthesizing final report"
    synthesizeReport resp
  else
    logStep .coordinator ("Current status: " ++ statusValue s.status)

/-! ### Stage protocol and orchestrator
(`BaseContractAgent.handle_processing`,
`ContractAnalysisOrchestrator.analyze_contract`) -/
/-- The `ValueError` raised by `handle_processing` when `validate_input`
returns false. -/
def invalidInputExc (a : AgentType) : Exc :=
  { kind := "ValueError", msg := agentValue a ++ " - Invalid input state", records := [] }

/-- The `try` block of `handle_processing`: mark the current agent
(recorded in the ghost trace), log, validate, run the stage body, log. -/
def handleBody (a : AgentType) (validate : ContractState → Bool)
    (proc : PyM Unit) : PyM Unit := do
  modifyS fun s =>
    { s with current_agent := a, stagesStarted := s.stagesStarted ++ [a] }
  logStep a "Starting processing"
  let s ← getS
  if validate s then do
    proc
    logStep a "Completed processing"
  else
    pyRaise (invalidInputExc a)

/-- The `except` block of `handle_processing`: append an error record,
set the status to failed and re-raise. -/
def handleFail (a : AgentType) (e : Exc) : PyM Unit := do
  addError a ("Processing failed: " ++ e.msg)
    (some (Json.obj [("exception_type", Json.str e.kind)]))
  modifyS fun s => { s with status := .failed }
  pyRaise e

/-- `handle_processing`. -/
def handleProcessing (a : AgentType) (validate : ContractState → Bool)
    (proc : PyM Unit) : PyM Unit :=
  pyTry (handleBody a validate proc) (handleFail a)

/-- One stage execution: `agent.handle_processing(state)` for the given
agent, with `resp` the outcome of its crew kickoff. -/
def runStage (a : AgentType) (resp : Except Exc String) : PyM Unit :=
  match a with
  | .parser => handleProcessing .parser parserValidateInput (parserProcess resp)
  | .legal => handleProcessing .legal legalValidateInput (legalProcess resp)
  | .risk => handleProcessing .risk riskValidateInput (riskProcess resp)
  | .coordinator => handleProcessing .coordinator coordValidateInput (coordProcess resp)

/-- The fixed stage order of the driver. -/
def stageOrder : List AgentType := [.parser, .legal, .risk, .coordinator]

/-- `if state["status"] == ProcessingStatus.FAILED: raise Exception(msg)`. -/
def checkNotFailed (msg : String) : PyM Unit := do
  let s ← getS
  if s.status = .failed then
    pyRaise { kind := "Exception", msg := msg, records := [] }
  else pure ()

/-- The `logger.success` f-string after the parser step evaluates
`len(state["parser_output"]["structured_sections"])`. -/
def parserLenLog : PyM Unit := do
  let s ← getS
  let p ← liftExc (pySubscript s.parser_output noneSubErr)
  let _ ← liftExc (pyLen p.structured_sections)
  pure ()

/-- The `logger.success` f-string after the legal step evaluates
`len(state["legal_analysis"]["clauses_identified"])`. -/
def legalLenLog : PyM Unit := do
  let s ← getS
  let l ← liftExc (pySubscript s.legal_analysis noneSubErr)
  let _ ← liftExc (pyLen l.clauses_identified)
  pure ()

/-- The `logger.success` f-string after the risk step subscripts
`state["risk_assessment"]`. -/
def riskSubLog : PyM Unit := do
  let s ← getS
  let _r ← liftExc (pySubscript s.risk_assessment noneSubErr)
  pure ()

/-- The final `logger.success` f-string subscripts `state["final_report"]`. -/
def finalSubLog : PyM Unit := do
  let s ← getS
  let _f ← liftExc (pySubscript s.final_report noneSubErr)
  pure ()

/-- The `try` body of `analyze_contract`: the four stage steps in fixed
order, each followed by the failure check and the `logger.success`
f-string hazard, then the orchestrator's own `completed_at` write. -/
def analyzeSteps (oracle : AgentType → Except Exc String) : PyM Unit := do
  runStage .parser (oracle .parser)
  checkNotFailed "Parser agent failed"
  parserLenLog
  runStage .legal (oracle .legal)
  checkNotFailed "Legal agent failed"
  legalLenLog
  runStage .risk (oracle .risk)
  checkNotFailed "Risk agent failed"
  riskSubLog
  runStage .coordinator (oracle .coordinator)
  checkNotFailed "Coordinator agent failed"
  writeCompletedAt
  finalSubLog

/-- The `except` handler of `analyze_contract`: set the failed status,
write `completed_at`, re-raise. -/
def analyzeCatch (e : Exc) : PyM Unit := do
  modifyS fun s => { s with status := .failed }
  writeCompletedAt
  pyRaise e

/-- The `try` body and `except` handler of `analyze_contract` (the state
record has already been created). -/
def analyzeBody (oracle : AgentType → Except Exc String) : PyM Unit :=
  pyTry (analyzeSteps oracle) analyzeCatch

/-- `analyze_contract`, exposing both the outcome and the final internal
state record.  The uuid-generated contract id is a parameter. -/
def analyzeContractFull (oracle : AgentType → Except Exc String)
    (contract_id filename : String) (file_size : ℤ)
    (user_instructions : Option String) (priority_level : String) :
    Except Exc Unit × ContractState :=
  analyzeBody oracle
    (createInitialState contract_id filename file_size user_instructions priority_level)

/-- The caller view of `analyze_contract`: the state record is returned
only on success; on failure only the raised exception escapes. -/
def analyzeContract (oracle : AgentType → Except Exc String)
    (contract_id filename : String) (file_size : ℤ)
    (user_instructions : Option String) (priority_level : String) :
    Except Exc ContractState :=
  match analyzeContractFull oracle contract_id filename file_size user_instructions priority_level with
  | (Except.ok _, s) => Except.ok s
  | (Except.error e, _) => Except.error e

/-- The state after one `log_processing_step` call. -/
def logState (a : AgentType) (msg : String) (s : ContractState) : ContractState :=
  { s with
    processing_logs := s.processing_logs ++ [⟨s.clock, a, msg⟩]
    clock := s.clock + 1 }

/-! ### Stage characterisation

For each stage a three-layer characterisation is proved: the flat
`process` body, the `process` wrapper with its own `except` clause, and
the full `handle_processing` stage execution. -/
/-- The three append-only collections of claim C8. -/
def listsMono (s t : ContractState) : Prop :=
  s.messages <+: t.messages ∧ s.errors <+: t.errors ∧
  s.processing_logs <+: t.processing_logs

/-- Slot discipline of one stage execution, used for the dependency
invariant: a stage leaves the other output slots untouched and may set
its own slot only when the slots it reads are populated. -/
def slotBehavior (a : AgentType) (s t : ContractState) : Prop :=
  match a with
  | .parser =>
    t.legal_analysis = s.legal_analysis ∧ t.risk_assessment = s.risk_assessment ∧
    t.final_report = s.final_report ∧
    (t.parser_output = s.parser_output ∨ t.parser_output.isSome)
  | .legal =>
    t.parser_output = s.parser_output ∧ t.risk_assessment = s.risk_assessment ∧
    t.final_report = s.final_report ∧
    (t.legal_analysis = s.legal_analysis ∨
      (t.legal_analysis.isSome ∧ s.parser_output.isSome))
  | .risk =>
    t.parser_output = s.parser_output ∧ t.legal_analysis = s.legal_analysis ∧
    t.final_report = s.final_report ∧
    (t.risk_assessment = s.risk_assessment ∨
      (t.risk_assessment.isSome ∧ s.legal_analysis.isSome))
  | .coordinator =>
    t.parser_output = s.parser_output ∧ t.legal_analysis = s.legal_analysis ∧
    t.risk_assessment = s.risk_assessment ∧
    (t.final_report = s.final_report ∨
      (t.final_report.isSome ∧ s.parser_output.isSome ∧ s.legal_analysis.isSome ∧
        s.risk_assessment.isSome))

/-- Characterisation of `ParserAgent.process` without its `except` clause. -/
def ParserBodyPost (resp : Except Exc String) (s : ContractState)
    (out : Except Exc Unit × ContractState) : Prop :=
  out.2.stagesStarted = s.stagesStarted ∧
  out.2.contract_metadata = s.contract_metadata ∧
  out.2.completed_at = s.completed_at ∧
  out.2.completedAtWrites = s.completedAtWrites ∧
  out.2.errors = s.errors ∧
  out.2.status = ProcessingStatus.parsing ∧
  s.processing_logs <+: out.2.processing_logs ∧
  slotBehavior .parser s out.2 ∧
  (out.1 = Except.ok () →
    (∃ m, out.2.messages = s.messages ++ [m] ∧ m.from_agent = AgentType.parser ∧
      m.to_agent = some AgentType.legal ∧ m.message_type = MessageType.analysis_result) ∧
    (∃ md fn po, s.contract_metadata = some md ∧ md.filename = some fn ∧
      out.2.parser_output = some po ∧ po.raw_text = getDocumentContent fn)) ∧
  (∀ e, out.1 = Except.error e →
    out.2.messages = s.messages ∧ (e.records = [] ∨ resp = Except.error e))

/-- Characterisation of `ParserAgent.process` with its `except` clause:
on an exception one bare error record is appended and the exception is
re-raised. -/
def ParserProcPost (resp : Except Exc String) (s : ContractState)
    (out : Except Exc Unit × ContractState) : Prop :=
  out.2.stagesStarted = s.stagesStarted ∧
  out.2.contract_metadata = s.contract_metadata ∧
  out.2.completed_at = s.completed_at ∧
  out.2.completedAtWrites = s.completedAtWrites ∧
  out.2.status = ProcessingStatus.parsing ∧
  s.processing_logs <+: out.2.processing_logs ∧
  slotBehavior .parser s out.2 ∧
  (out.1 = Except.ok () →
    out.2.errors = s.errors ∧
    (∃ m, out.2.messages = s.messages ++ [m] ∧ m.from_agent = AgentType.parser ∧
      m.to_agent = some AgentType.legal ∧ m.message_type = MessageType.analysis_result) ∧
    (∃ md fn po, s.contract_metadata = some md ∧ md.filename = some fn ∧
      out.2.parser_output = some po ∧ po.raw_text = getDocumentContent fn)) ∧
  (∀ e, out.1 = Except.error e →
    out.2.messages = s.messages ∧
    (∃ t, out.2.errors =
      s.errors ++ [⟨t, AgentType.parser, "Parsing failed: " ++ e.msg, Json.obj []⟩]) ∧
    (e.records = [] ∨ resp = Except.error e))

/-- Success shape of one stage execution. -/
def okShape (a : AgentType) (s t : ContractState) : Prop :=
  match a with
  | .parser =>
    t.status = ProcessingStatus.parsing ∧ t.errors = s.errors ∧
    t.completedAtWrites = s.completedAtWrites ∧ t.completed_at = s.completed_at ∧
    (∃ m, t.messages = s.messages ++ [m] ∧ m.from_agent = AgentType.parser ∧
      m.to_agent = some AgentType.legal ∧ m.message_type = MessageType.analysis_result) ∧
    (∃ md fn po, s.contract_metadata = some md ∧ md.filename = some fn ∧
      t.parser_output = some po ∧ po.raw_text = getDocumentContent fn)
  | .legal =>
    t.status = ProcessingStatus.analyzing ∧ t.errors = s.errors ∧
    t.completedAtWrites = s.completedAtWrites ∧ t.completed_at = s.completed_at ∧
    (∃ m, t.messages = s.messages ++ [m] ∧ m.from_agent = AgentType.legal ∧
      m.to_agent = some AgentType.risk ∧ m.message_type = MessageType.analysis_result) ∧
    t.legal_analysis.isSome
  | .risk =>
    t.status = ProcessingStatus.risk_assessment ∧ t.errors = s.errors ∧
    t.completedAtWrites = s.completedAtWrites ∧ t.completed_at = s.completed_at ∧
    (∃ m, t.messages = s.messages ++ [m] ∧ m.from_agent = AgentType.risk ∧
      m.to_agent = some AgentType.coordinator ∧ m.message_type = MessageType.analysis_result) ∧
    t.risk_assessment.isSome
  | .coordinator =>
    ((s.parser_output.isSome && s.legal_analysis.isSome && s.risk_assessment.isSome) = true →
      t.status = ProcessingStatus.completed ∧ t.errors = s.errors ∧
      t.completedAtWrites = s.completedAtWrites + 1 ∧ t.completed_at.isSome ∧
      t.final_report.isSome ∧
      (∃ m, t.messages = s.messages ++ [m] ∧ m.from_agent = AgentType.coordinator ∧
        m.to_agent = none ∧ m.message_type = MessageType.completion)) ∧
    ((s.parser_output.isSome && s.legal_analysis.isSome && s.risk_assessment.isSome) = false →
      t.status = s.status ∧ t.errors = s.errors ∧
      t.completedAtWrites = s.completedAtWrites ∧ t.completed_at = s.completed_at ∧
      t.messages = s.messages ∧ t.final_report = s.final_report)

/-- Full characterisation of one stage execution
(`agent.handle_processing`). -/
def StagePost (a : AgentType) (resp : Except Exc String) (s : ContractState)
    (out : Except Exc Unit × ContractState) : Prop :=
  out.2.stagesStarted = s.stagesStarted ++ [a] ∧
  out.2.contract_metadata = s.contract_metadata ∧
  listsMono s out.2 ∧
  slotBehavior a s out.2 ∧
  (∀ e, out.1 = Except.error e →
    out.2.status = ProcessingStatus.failed ∧
    out.2.completedAtWrites = s.completedAtWrites ∧
    out.2.completed_at = s.completed_at ∧
    (e.records = [] ∨ resp = Except.error e) ∧
    (∃ pre rec, out.2.errors = s.errors ++ pre ++ [rec] ∧
      rec.agent = a ∧ rec.message = "Processing failed: " ++ e.msg)) ∧
  (out.1 = Except.ok () → okShape a s out.2)

/-- Characterisation of the `try` block of `handle_processing` for the
parser stage. -/
def ParserHBPost (resp : Except Exc String) (s : ContractState)
    (out : Except Exc Unit × ContractState) : Prop :=
  out.2.stagesStarted = s.stagesStarted ++ [AgentType.parser] ∧
  out.2.contract_metadata = s.contract_metadata ∧
  listsMono s out.2 ∧
  out.2.completed_at = s.completed_at ∧
  out.2.completedAtWrites = s.completedAtWrites ∧
  slotBehavior .parser s out.2 ∧
  (out.1 = Except.ok () → okShape .parser s out.2) ∧
  (∀ e, out.1 = Except.error e → (e.records = [] ∨ resp = Except.error e))

/-- The state after the opening steps of `handle_processing`: the current
agent is set (recorded in the ghost trace) and the starting log line is
appended. -/
def preludeState (a : AgentType) (s : ContractState) : ContractState :=
  { s with
    current_agent := a
    stagesStarted := s.stagesStarted ++ [a]
    processing_logs := s.processing_logs ++ [⟨s.clock, a, "Starting processing"⟩]
    clock := s.clock + 1 }

/-- Characterisation of `LegalAgent.process` without its `except` clause. -/
def LegalBodyPost (resp : Except Exc String) (s : ContractState)
    (out : Except Exc Unit × ContractState) : Prop :=
  out.2.stagesStarted = s.stagesStarted ∧
  out.2.contract_metadata = s.contract_metadata ∧
  out.2.completed_at = s.completed_at ∧
  out.2.completedAtWrites = s.completedAtWrites ∧
  out.2.errors = s.errors ∧
  out.2.status = ProcessingStatus.analyzing ∧
  s.processing_logs <+: out.2.processing_logs ∧
  slotBehavior .legal s out.2 ∧
  (out.1 = Except.ok () →
    (∃ m, out.2.messages = s.messages ++ [m] ∧ m.from_agent = AgentType.legal ∧
      m.to_agent = some AgentType.risk ∧ m.message_type = MessageType.analysis_result) ∧
    out.2.legal_analysis.isSome) ∧
  (∀ e, out.1 = Except.error e →
    out.2.messages = s.messages ∧ (e.records = [] ∨ resp = Except.error e))

/-- Characterisation of `LegalAgent.process` with its `except` clause. -/
def LegalProcPost (resp : Except Exc String) (s : ContractState)
    (out : Except Exc Unit × ContractState) : Prop :=
  out.2.stagesStarted = s.stagesStarted ∧
  out.2.contract_metadata = s.contract_metadata ∧
  out.2.completed_at = s.completed_at ∧
  out.2.completedAtWrites = s.completedAtWrites ∧
  out.2.status = ProcessingStatus.analyzing ∧
  s.processing_logs <+: out.2.processing_logs ∧
  slotBehavior .legal s out.2 ∧
  (out.1 = Except.ok () →
    out.2.errors = s.errors ∧
    (∃ m, out.2.messages = s.messages ++ [m] ∧ m.from_agent = AgentType.legal ∧
      m.to_agent = some AgentType.risk ∧ m.message_type = MessageType.analysis_result) ∧
    out.2.legal_analysis.isSome) ∧
  (∀ e, out.1 = Except.error e →
    out.2.messages = s.messages ∧
    (∃ t, out.2.errors =
      s.errors ++ [⟨t, AgentType.legal, "Legal analysis failed: " ++ e.msg, Json.obj []⟩]) ∧
    (e.records = [] ∨ resp = Except.error e))

/-- Characterisation of the `try` block of `handle_processing` for the
legal stage. -/
def LegalHBPost (resp : Except Exc String) (s : ContractState)
    (out : Except Exc Unit × ContractState) : Prop :=
  out.2.stagesStarted = s.stagesStarted ++ [AgentType.legal] ∧
  out.2.contract_metadata = s.contract_metadata ∧
  listsMono s out.2 ∧
  out.2.completed_at = s.completed_at ∧
  out.2.completedAtWrites = s.completedAtWrites ∧
  slotBehavior .legal s out.2 ∧
  (out.1 = Except.ok () → okShape .legal s out.2) ∧
  (∀ e, out.1 = Except.error e → (e.records = [] ∨ resp = Except.error e))

/-- Characterisation of `RiskAgent.process` without its `except` clause. -/
def RiskBodyPost (resp : Except Exc String) (s : ContractState)
    (out : Except Exc Unit × ContractState) : Prop :=
  out.2.stagesStarted = s.stagesStarted ∧
  out.2.contract_metadata = s.contract_metadata ∧
  out.2.completed_at = s.completed_at ∧
  out.2.completedAtWrites = s.completedAtWrites ∧
  out.2.errors = s.errors ∧
  out.2.status = ProcessingStatus.risk_assessment ∧
  s.processing_logs <+: out.2.processing_logs ∧
  slotBehavior .risk s out.2 ∧
  (out.1 = Except.ok () →
    (∃ m, out.2.messages = s.messages ++ [m] ∧ m.from_agent = AgentType.risk ∧
      m.to_agent = some AgentType.coordinator ∧ m.message_type = MessageType.analysis_result) ∧
    out.2.risk_assessment.isSome) ∧
  (∀ e, out.1 = Except.error e →
    out.2.messages = s.messages ∧ (e.records = [] ∨ resp = Except.error e))

/-- Characterisation of `RiskAgent.process` with its `except` clause. -/
def RiskProcPost (resp : Except Exc String) (s : ContractState)
    (out : Except Exc Unit × ContractState) : Prop :=
  out.2.stagesStarted = s.stagesStarted ∧
  out.2.contract_metadata = s.contract_metadata ∧
  out.2.completed_at = s.completed_at ∧
  out.2.completedAtWrites = s.completedAtWrites ∧
  out.2.status = ProcessingStatus.risk_assessment ∧
  s.processing_logs <+: out.2.processing_logs ∧
  slotBehavior .risk s out.2 ∧
  (out.1 = Except.ok () →
    out.2.errors = s.errors ∧
    (∃ m, out.2.messages = s.messages ++ [m] ∧ m.from_agent = AgentType.risk ∧
      m.to_agent = some AgentType.coordinator ∧ m.message_type = MessageType.analysis_result) ∧
    out.2.risk_assessment.isSome) ∧
  (∀ e, out.1 = Except.error e →
    out.2.messages = s.messages ∧
    (∃ t, out.2.errors =
      s.errors ++ [⟨t, AgentType.risk, "Risk assessment failed: " ++ e.msg, Json.obj []⟩]) ∧
    (e.records = [] ∨ resp = Except.error e))

/-- Characterisation of the `try` block of `handle_processing` for the
risk stage. -/
def RiskHBPost (resp : Except Exc String) (s : ContractState)
    (out : Except Exc Unit × ContractState) : Prop :=
  out.2.stagesStarted = s.stagesStarted ++ [AgentType.risk] ∧
  out.2.contract_metadata = s.contract_metadata ∧
  listsMono s out.2 ∧
  out.2.completed_at = s.completed_at ∧
  out.2.completedAtWrites = s.completedAtWrites ∧
  slotBehavior .risk s out.2 ∧
  (out.1 = Except.ok () → okShape .risk s out.2) ∧
  (∀ e, out.1 = Except.error e → (e.records = [] ∨ resp = Except.error e))

/-- Characterisation of `CoordinatorAgent.synthesize_report` without its
`except` clause. -/
def SynthBodyPost (resp : Except Exc String) (s : ContractState)
    (out : Except Exc Unit × ContractState) : Prop :=
  out.2.stagesStarted = s.stagesStarted ∧
  out.2.contract_metadata = s.contract_metadata ∧
  out.2.errors = s.errors ∧
  out.2.parser_output = s.parser_output ∧
  out.2.legal_analysis = s.legal_analysis ∧
  out.2.risk_assessment = s.risk_assessment ∧
  s.processing_logs <+: out.2.processing_logs ∧
  (out.1 = Except.ok () →
    out.2.status = ProcessingStatus.completed ∧
    out.2.completedAtWrites = s.completedAtWrites + 1 ∧
    out.2.completed_at.isSome ∧ out.2.final_report.isSome ∧
    s.parser_output.isSome ∧ s.legal_analysis.isSome ∧ s.risk_assessment.isSome ∧
    (∃ m, out.2.messages = s.messages ++ [m] ∧ m.from_agent = AgentType.coordinator ∧
      m.to_agent = none ∧ m.message_type = MessageType.completion)) ∧
  (∀ e, out.1 = Except.error e →
    out.2.status = ProcessingStatus.synthesizing ∧
    out.2.completedAtWrites = s.completedAtWrites ∧
    out.2.completed_at = s.completed_at ∧
    out.2.final_report = s.final_report ∧
    out.2.messages = s.messages ∧ (e.records = [] ∨ resp = Except.error e))

/-- Characterisation of `CoordinatorAgent.synthesize_report` with its
`except` clause. -/
def SynthPost (resp : Except Exc String) (s : ContractState)
    (out : Except Exc Unit × ContractState) : Prop :=
  out.2.stagesStarted = s.stagesStarted ∧
  out.2.contract_metadata = s.contract_metadata ∧
  out.2.parser_output = s.parser_output ∧
  out.2.legal_analysis = s.legal_analysis ∧
  out.2.risk_assessment = s.risk_assessment ∧
  s.processing_logs <+: out.2.processing_logs ∧
  s.errors <+: out.2.errors ∧
  (out.1 = Except.ok () →
    out.2.status = ProcessingStatus.completed ∧
    out.2.completedAtWrites = s.completedAtWrites + 1 ∧
    out.2.completed_at.isSome ∧ out.2.final_report.isSome ∧
    out.2.errors = s.errors ∧
    s.parser_output.isSome ∧ s.legal_analysis.isSome ∧ s.risk_assessment.isSome ∧
    (∃ m, out.2.messages = s.messages ++ [m] ∧ m.from_agent = AgentType.coordinator ∧
      m.to_agent = none ∧ m.message_type = MessageType.completion)) ∧
  (∀ e, out.1 = Except.error e →
    out.2.status = ProcessingStatus.synthesizing ∧
    out.2.completedAtWrites = s.completedAtWrites ∧
    out.2.completed_at = s.completed_at ∧
    out.2.final_report = s.final_report ∧
    out.2.messages = s.messages ∧ (e.records = [] ∨ resp = Except.error e))

/-- Characterisation of `CoordinatorAgent.process`. -/
def CoordProcPost (resp : Except Exc String) (s : ContractState)
    (out : Except Exc Unit × ContractState) : Prop :=
  out.2.stagesStarted = s.stagesStarted ∧
  out.2.contract_metadata = s.contract_metadata ∧
  out.2.parser_output = s.parser_output ∧
  out.2.legal_analysis = s.legal_analysis ∧
  out.2.risk_assessment = s.risk_assessment ∧
  s.processing_logs <+: out.2.processing_logs ∧
  s.errors <+: out.2.errors ∧
  s.messages <+: out.2.messages ∧
  (out.1 = Except.ok () → okShape .coordinator s out.2 ∧
    (out.2.final_report = s.final_report ∨ out.2.final_report.isSome)) ∧
  (∀ e, out.1 = Except.error e →
    out.2.status = ProcessingStatus.synthesizing ∧
    out.2.completedAtWrites = s.completedAtWrites ∧
    out.2.completed_at = s.completed_at ∧
    out.2.final_report = s.final_report ∧
    (e.records = [] ∨ resp = Except.error e))

/-- Characterisation of the `try` block of `handle_processing` for the
coordinator stage. -/
def CoordHBPost (resp : Except Exc String) (s : ContractState)
    (out : Except Exc Unit × ContractState) : Prop :=
  out.2.stagesStarted = s.stagesStarted ++ [AgentType.coordinator] ∧
  out.2.contract_metadata = s.contract_metadata ∧
  listsMono s out.2 ∧
  slotBehavior .coordinator s out.2 ∧
  (out.1 = Except.ok () → okShape .coordinator s out.2) ∧
  (∀ e, out.1 = Except.error e →
    out.2.completedAtWrites = s.completedAtWrites ∧
    out.2.completed_at = s.completed_at ∧
    (e.records = [] ∨ resp = Except.error e))

/-- A run fragment: a sequence of stage executions
(`agent.handle_processing`), each with the outcome of its crew kickoff.
The state transformation ignores whether a stage raised, since
`handle_processing` mutates the shared state record in place either way. -/
def runSteps : List (AgentType × Except Exc String) → ContractState → ContractState
  | [], s => s
  | (a, resp) :: rest, s => runSteps rest (runStage a resp s).2

/-- The slot dependency invariant of the fixed order
Parser → Legal → Risk → Coordinator. -/
def SlotInv (s : ContractState) : Prop :=
  (s.legal_analysis.isSome → s.parser_output.isSome) ∧
  (s.risk_assessment.isSome → s.legal_analysis.isSome) ∧
  (s.final_report.isSome →
    s.parser_output.isSome ∧ s.legal_analysis.isSome ∧ s.risk_assessment.isSome)

/-- Characterisation of the `try` body of `analyze_contract` started on a
freshly created state: on success the run is complete with both
`completed_at` writes done; on failure the write counter is still zero,
the started stages form a prefix of the fixed order and the escaping
exception carries no error records (when the crew outcomes are bare). -/
def StepsPost (oracle : AgentType → Except Exc String)
    (out : Except Exc Unit × ContractState) : Prop :=
  (out.1 = Except.ok () →
    out.2.status = ProcessingStatus.completed ∧
    out.2.completedAtWrites = 2 ∧
    out.2.completed_at.isSome = true ∧
    out.2.errors = [] ∧
    out.2.stagesStarted = stageOrder ∧
    out.2.messages.map AgentMessage.from_agent = stageOrder ∧
    out.2.final_report.isSome = true) ∧
  (∀ e, out.1 = Except.error e →
    out.2.completedAtWrites = 0 ∧
    out.2.completed_at = none ∧
    out.2.stagesStarted <+: stageOrder ∧
    out.2.stagesStarted ≠ [] ∧
    ((∀ a e2, oracle a = Except.error e2 → e2.records = []) → e.records = []))

/-- Characterisation of `analyze_contract`: on success the final state is
completed with both `completed_at` writes; on failure the original stage
exception is re-raised after the catch block marked the state failed and
wrote `completed_at` once. -/
def PipelinePost (oracle : AgentType → Except Exc String)
    (out : Except Exc Unit × ContractState) : Prop :=
  (out.1 = Except.ok () →
    out.2.status = ProcessingStatus.completed ∧
    out.2.completedAtWrites = 2 ∧
    out.2.completed_at.isSome = true ∧
    out.2.errors = [] ∧
    out.2.stagesStarted = stageOrder ∧
    out.2.messages.map AgentMessage.from_agent = stageOrder ∧
    out.2.final_report.isSome = true) ∧
  (∀ e, out.1 = Except.error e →
    out.2.status = ProcessingStatus.failed ∧
    out.2.completedAtWrites = 1 ∧
    out.2.completed_at.isSome = true ∧
    out.2.stagesStarted <+: stageOrder ∧
    out.2.stagesStarted ≠ [] ∧
    ((∀ a e2, oracle a = Except.error e2 → e2.records = []) → e.records = []))

/-- The empty JSON object as a crew response: parses directly, so every
field of the structured outputs takes its documented default. -/
def benignResp : String := "\x7b\x7d"

/-- An oracle under which every crew kickoff returns a parseable reply. -/
def benignOracle : AgentType → Except Exc String := fun _ => Except.ok benignResp

/-- A generic runtime failure raised inside a crew kickoff. -/
def boomExc : Exc := { kind := "RuntimeError", msg := "boom", records := [] }

/-- An oracle under which the legal-stage kickoff raises. -/
def failLegalOracle : AgentType → Except Exc String := fun a =>
  match a with
  | .legal => Except.error boomExc
  | _ => Except.ok benignResp

/-- A response text on which all three coercion strategies fail: no
direct parse, no fenced block, no brace-delimited span. -/
def Unparseable (t : String) : Prop :=
  Json.parse t = none ∧ findFencedJson t = none ∧ findBraceSpan t = none

/-- A canonical plain-prose response. -/
def c4Doc : String := "The contract looks moderately risky overall."

/-- The oracle of end-to-end scenario 3: every stage replies with the
benign parseable text except the risk stage, whose kickoff returns the
given prose. -/
def c4Oracle (rtext : String) : AgentType → Except Exc String := fun a =>
  match a with
  | .risk => Except.ok rtext
  | _ => Except.ok benignResp

/-- The response text separating the implemented coercion from the
specified one: the full text does not parse (extra data), the fenced
block exists but its inner content is invalid, and a parseable balanced
brace span precedes the fence. -/
def c3Ex : String := "\x7b\"x\": 1\x7d ```json \x7b\"y\": \x7d ```"

/-- A response whose fenced block parses, exercising strategy 2. -/
def c3Fenced : String := "noise ```json \x7b\x7d ``` trailing"

/-! ## Theorems -/

/-- Sanity: decimal numbers normalise to the canonical mantissa form. -/
theorem jsonParse_number_sanity : Json.parse "5.0" = some (Json.num 5 0) := by rfl

/-- Sanity: a duplicate key keeps the last value at the first position. -/
theorem jsonParse_dup_key_sanity : Json.parse " \x7b\"a\": 1, \"a\": 2\x7d " =
    some (Json.obj [("a", Json.num 2 0)]) := by rfl

/-- Sanity: trailing non-whitespace is the `Extra data` error. -/
theorem jsonParse_extra_data_sanity : Json.parse "\x7b\"x\": 1\x7d oops" = none := by rfl

/-- Sanity: arrays, literals and exponent numbers. -/
theorem jsonParse_array_sanity : Json.parse "[true, null, -1.5e1]" =
    some (Json.arr [Json.bool true, Json.null, Json.num (-15) 0]) := by rfl

/-- Sanity: the brace regex matches one nesting level. -/
theorem findBraceSpan_nested_sanity :
    findBraceSpan "a\x7bb\x7bc\x7dd\x7de" = some "\x7bb\x7bc\x7dd\x7d" := by rfl

/-- Sanity: a two-deep prefix fails and the scan restarts further in. -/
theorem findBraceSpan_depth_sanity :
    findBraceSpan "\x7ba\x7bb\x7bc\x7d" = some "\x7bc\x7d" := by rfl

/-- Sanity: the fenced-block regex is lazy up to the first closing fence. -/
theorem findFencedJson_found_sanity :
    findFencedJson "```json \x7b\"y\": \x7d ```" = some "\x7b\"y\": \x7d" := by rfl

/-- Sanity: a fence with no brace inside does not match. -/
theorem findFencedJson_none_sanity :
    findFencedJson "```json no brace ```" = none := by rfl

@[simp]
theorem pyBind_apply {α β : Type} (m : PyM α) (f : α → PyM β) (s : ContractState) :
    (m >>= f) s =
      match (m s).1 with
      | Except.ok a => f a (m s).2
      | Except.error e => (Except.error e, (m s).2) := by
  show (match m s with
    | (Except.ok a, s1) => f a s1
    | (Except.error e, s1) => (Except.error e, s1)) = _
  rcases m s with ⟨r, t⟩
  cases r <;> rfl

@[simp]
theorem pyPure_apply {α : Type} (a : α) (s : ContractState) :
    (pure a : PyM α) s = (Except.ok a, s) := rfl

@[simp]
theorem pyRaise_apply {α : Type} (e : Exc) (s : ContractState) :
    (pyRaise e : PyM α) s = (Except.error e, s) := rfl

@[simp]
theorem pyTry_apply {α : Type} (body : PyM α) (handler : Exc → PyM α) (s : ContractState) :
    pyTry body handler s =
      match (body s).1 with
      | Except.ok a => (Except.ok a, (body s).2)
      | Except.error e => handler e (body s).2 := by
  show (match body s with
    | (Except.ok a, s1) => (Except.ok a, s1)
    | (Except.error e, s1) => handler e s1) = _
  rcases body s with ⟨r, t⟩
  cases r <;> rfl

@[simp]
theorem getS_apply (s : ContractState) : getS s = (Except.ok s, s) := rfl

@[simp]
theorem modifyS_apply (f : ContractState → ContractState) (s : ContractState) :
    modifyS f s = (Except.ok (), f s) := rfl

@[simp]
theorem tick_apply (s : ContractState) :
    tick s = (Except.ok s.clock, { s with clock := s.clock + 1 }) := rfl

@[simp]
theorem liftExc_apply {α : Type} (x : Except Exc α) (s : ContractState) :
    liftExc x s = (x, s) := rfl

/-! ### Inversion lemmas for the built-in helpers -/
@[simp]
theorem pySubscript_some {α : Type} (x : α) (err : Exc) :
    pySubscript (some x) err = Except.ok x := rfl

@[simp]
theorem pySubscript_none {α : Type} (err : Exc) :
    pySubscript (none : Option α) err = Except.error err := rfl

@[simp]
theorem pySubscript_ok_iff {α : Type} {o : Option α} {err : Exc} {x : α} :
    pySubscript o err = Except.ok x ↔ o = some x := by
  cases o <;> simp [pySubscript]

@[simp]
theorem pySubscript_error_iff {α : Type} {o : Option α} {err e : Exc} :
    pySubscript o err = Except.error e ↔ (o = none ∧ e = err) := by
  cases o <;> simp [pySubscript, eq_comm]

@[simp]
theorem dictGet_error_iff {j : Json} {k : String} {d : Json} {e : Exc} :
    dictGet j k d = Except.error e ↔ (j.isObj = false ∧ e = attrNoGetErr) := by
  cases j <;> simp [dictGet, Json.isObj, eq_comm]

@[simp]
theorem pyLen_error_iff {j : Json} {e : Exc} :
    pyLen j = Except.error e ↔ (j.hasLen = false ∧ e = lenErr) := by
  cases j <;> simp [pyLen, Json.hasLen, eq_comm]

@[simp]
theorem pyJoinOk_error_iff {j : Json} {e : Exc} :
    pyJoinOk j = Except.error e ↔ (j.joinable = false ∧ e = joinErr) := by
  by_cases h : j.joinable <;> simp [pyJoinOk, h, eq_comm]

@[simp]
theorem pyJoinOk_ok_iff {j : Json} :
    pyJoinOk j = Except.ok () ↔ j.joinable = true := by
  by_cases h : j.joinable <;> simp [pyJoinOk, h]

@[simp]
theorem pySliceOk_error_iff {j : Json} {e : Exc} :
    pySliceOk j = Except.error e ↔ (j.sliceable = false ∧ e = sliceErr) := by
  by_cases h : j.sliceable <;> simp [pySliceOk, h, eq_comm]

@[simp]
theorem pySliceOk_ok_iff {j : Json} :
    pySliceOk j = Except.ok () ↔ j.sliceable = true := by
  by_cases h : j.sliceable <;> simp [pySliceOk, h]

@[simp]
theorem pyKeysOk_error_iff {j : Json} {e : Exc} :
    pyKeysOk j = Except.error e ↔ (j.isObj = false ∧ e = keysErr) := by
  by_cases h : j.isObj <;> simp [pyKeysOk, h, eq_comm]

@[simp]
theorem pyKeysOk_ok_iff {j : Json} :
    pyKeysOk j = Except.ok () ↔ j.isObj = true := by
  by_cases h : j.isObj <;> simp [pyKeysOk, h]

@[simp]
theorem pyFormatListOk_error_iff {j : Json} {e : Exc} :
    pyFormatListOk j = Except.error e ↔ (j.formatable = false ∧ e = fmtErr) := by
  by_cases h : j.formatable <;> simp [pyFormatListOk, h, eq_comm]

@[simp]
theorem pyFormatListOk_ok_iff {j : Json} :
    pyFormatListOk j = Except.ok () ↔ j.formatable = true := by
  by_cases h : j.formatable <;> simp [pyFormatListOk, h]

@[simp]
theorem logStep_apply (a : AgentType) (msg : String) (s : ContractState) :
    logStep a msg s = (Except.ok (), logState a msg s) := rfl

theorem parserProcessBody_post (resp : Except Exc String) (s : ContractState) :
    ParserBodyPost resp s (parserProcessBody resp s) := by
  unfold ParserBodyPost parserProcessBody slotBehavior
  simp only [logStep, addError, sendMessage, updateStatus, pyBind_apply, pyPure_apply,
    pyRaise_apply, getS_apply, modifyS_apply, tick_apply, liftExc_apply, pyTry_apply]
  repeat' split
  all_goals simp_all [List.prefix_append, noneSubErr, attrLowerErr, attrNoGetErr, lenErr,
    joinErr, keysErr, sliceErr, fmtErr]

theorem parserProcess_post (resp : Except Exc String) (s : ContractState) :
    ParserProcPost resp s (parserProcess resp s) := by
  unfold parserProcess
  rcases hres : parserProcessBody resp s with ⟨r, s1⟩
  have hb := parserProcessBody_post resp s
  rw [hres] at hb
  rw [pyTry_apply, hres]
  unfold ParserBodyPost slotBehavior at hb
  dsimp only at hb
  obtain ⟨hst, hmd, hca, hcw, herr, hstat, hlog, hslot, hok, herrc⟩ := hb
  cases r with
  | ok a =>
    cases a
    obtain ⟨hm, hpo⟩ := hok rfl
    unfold ParserProcPost slotBehavior
    dsimp only
    exact ⟨hst, hmd, hca, hcw, hstat, hlog, hslot, fun _ => ⟨herr, hm, hpo⟩,
      fun e he => Except.noConfusion he⟩
  | error e =>
    obtain ⟨hmsg, hrec⟩ := herrc e rfl
    simp only [addError, pyBind_apply, tick_apply, modifyS_apply, pyRaise_apply,
      pyPure_apply, Option.getD]
    unfold ParserProcPost slotBehavior
    dsimp only
    refine ⟨hst, hmd, hca, hcw, hstat, hlog,
      ⟨hslot.1, hslot.2.1, hslot.2.2.1, hslot.2.2.2⟩,
      fun h => Except.noConfusion h, fun e2 he2 => ?_⟩
    injection he2 with h2
    subst h2
    exact ⟨hmsg, ⟨s1.clock, by rw [herr]⟩, hrec⟩

theorem handleBody_apply (a : AgentType) (v : ContractState → Bool)
    (p : PyM Unit) (s : ContractState) :
    handleBody a v p s =
      if v (preludeState a s) = true then
        (p >>= fun _ => logStep a "Completed processing") (preludeState a s)
      else (Except.error (invalidInputExc a), preludeState a s) := by
  unfold handleBody preludeState
  simp only [pyBind_apply, modifyS_apply, tick_apply, getS_apply, logStep, pyRaise_apply,
    pyPure_apply, ite_apply]
  split <;> simp_all

theorem parserHandleBody_post (resp : Except Exc String) (s : ContractState) :
    ParserHBPost resp s
      (handleBody .parser parserValidateInput (parserProcess resp) s) := by
  rw [handleBody_apply]
  split
  · -- validate true: the process runs, then the completion log line
    rw [pyBind_apply]
    rcases hp : parserProcess resp (preludeState .parser s) with ⟨r, s2⟩
    have hpp := parserProcess_post resp (preludeState .parser s)
    rw [hp] at hpp
    unfold ParserProcPost slotBehavior preludeState at hpp
    dsimp only at hpp
    obtain ⟨hst, hmd, hca, hcw, hstat, hlog, hslot, hok, herrc⟩ := hpp
    simp only [hp]
    cases r with
    | ok a =>
      cases a
      obtain ⟨herr, hm, hpo⟩ := hok rfl
      obtain ⟨m, hm1, hm2, hm3, hm4⟩ := hm
      unfold ParserHBPost listsMono slotBehavior okShape
      simp only [logStep, pyBind_apply, tick_apply, modifyS_apply, pyPure_apply]
      refine ⟨hst, hmd, ⟨?_, by rw [herr], ?_⟩, hca, hcw,
        ⟨hslot.1, hslot.2.1, hslot.2.2.1, hslot.2.2.2⟩,
        fun _ => ⟨hstat, herr, hcw, hca, ⟨m, hm1, hm2, hm3, hm4⟩, hpo⟩,
        fun e he => Except.noConfusion he⟩
      · rw [hm1]; exact List.prefix_append _ _
      · exact ((List.prefix_append _ _).trans hlog).trans (List.prefix_append _ _)
    | error e =>
      obtain ⟨hmsg, hrec, hbare⟩ := herrc e rfl
      obtain ⟨t, hterr⟩ := hrec
      unfold ParserHBPost listsMono slotBehavior okShape
      dsimp only
      refine ⟨hst, hmd, ⟨by rw [hmsg], ?_, (List.prefix_append _ _).trans hlog⟩, hca, hcw,
        ⟨hslot.1, hslot.2.1, hslot.2.2.1, hslot.2.2.2⟩,
        fun h => Except.noConfusion h, fun e2 he2 => ?_⟩
      · rw [hterr]; exact List.prefix_append _ _
      · injection he2 with h2; subst h2; exact hbare
  · -- validate false: InvalidInputError is raised
    unfold ParserHBPost listsMono slotBehavior okShape preludeState invalidInputExc
    dsimp only
    exact ⟨rfl, rfl, ⟨List.prefix_rfl, List.prefix_rfl, List.prefix_append _ _⟩, rfl, rfl,
      ⟨rfl, rfl, rfl, Or.inl rfl⟩,
      fun h => Except.noConfusion h,
      fun e2 he2 => by injection he2 with h2; subst h2; exact Or.inl rfl⟩

theorem parserStage_post (resp : Except Exc String) (s : ContractState) :
    StagePost .parser resp s (runStage .parser resp s) := by
  unfold runStage handleProcessing
  dsimp only
  rw [pyTry_apply]
  rcases hb : handleBody .parser parserValidateInput (parserProcess resp) s with ⟨r, s1⟩
  have hhb := parserHandleBody_post resp s
  rw [hb] at hhb
  unfold ParserHBPost listsMono slotBehavior at hhb
  dsimp only at hhb
  obtain ⟨hst, hmd, ⟨hm, he, hl⟩, hca, hcw, hslot, hok, herrc⟩ := hhb
  simp only [hb]
  cases r with
  | ok a =>
    cases a
    unfold StagePost listsMono slotBehavior
    dsimp only
    exact ⟨hst, hmd, ⟨hm, he, hl⟩, hslot,
      fun e hce => Except.noConfusion hce, fun _ => hok rfl⟩
  | error e =>
    simp only [handleFail, addError, pyBind_apply, tick_apply, modifyS_apply,
      pyRaise_apply, pyPure_apply, Option.getD]
    unfold StagePost listsMono slotBehavior okShape
    dsimp only
    refine ⟨hst, hmd, ⟨hm, he.trans (List.prefix_append _ _), hl⟩,
      ⟨hslot.1, hslot.2.1, hslot.2.2.1, hslot.2.2.2⟩, fun e2 he2 => ?_,
      fun h => Except.noConfusion h⟩
    injection he2 with h2
    subst h2
    obtain ⟨pre, hpre⟩ := he
    refine ⟨rfl, hcw, hca, herrc e rfl, pre,
      ⟨s1.clock, AgentType.parser, "Processing failed: " ++ e.msg,
        Json.obj [("exception_type", Json.str e.kind)]⟩, ?_, rfl, rfl⟩
    rw [← hpre]

theorem legalProcessBody_post (resp : Except Exc String) (s : ContractState) :
    LegalBodyPost resp s (legalProcessBody resp s) := by
  unfold LegalBodyPost legalProcessBody slotBehavior
  simp only [logStep, addError, sendMessage, updateStatus, pyBind_apply, pyPure_apply,
    pyRaise_apply, getS_apply, modifyS_apply, tick_apply, liftExc_apply, pyTry_apply]
  repeat' split
  all_goals simp_all [List.prefix_append, noneSubErr, attrLowerErr, attrNoGetErr, lenErr,
    joinErr, keysErr, sliceErr, fmtErr]

theorem legalProcess_post (resp : Except Exc String) (s : ContractState) :
    LegalProcPost resp s (legalProcess resp s) := by
  unfold legalProcess
  rcases hres : legalProcessBody resp s with ⟨r, s1⟩
  have hb := legalProcessBody_post resp s
  rw [hres] at hb
  rw [pyTry_apply, hres]
  unfold LegalBodyPost slotBehavior at hb
  dsimp only at hb
  obtain ⟨hst, hmd, hca, hcw, herr, hstat, hlog, hslot, hok, herrc⟩ := hb
  cases r with
  | ok a =>
    cases a
    obtain ⟨hm, hpo⟩ := hok rfl
    unfold LegalProcPost slotBehavior
    dsimp only
    exact ⟨hst, hmd, hca, hcw, hstat, hlog, hslot, fun _ => ⟨herr, hm, hpo⟩,
      fun e he => Except.noConfusion he⟩
  | error e =>
    obtain ⟨hmsg, hrec⟩ := herrc e rfl
    simp only [addError, pyBind_apply, tick_apply, modifyS_apply, pyRaise_apply,
      pyPure_apply, Option.getD]
    unfold LegalProcPost slotBehavior
    dsimp only
    refine ⟨hst, hmd, hca, hcw, hstat, hlog,
      ⟨hslot.1, hslot.2.1, hslot.2.2.1, hslot.2.2.2⟩,
      fun h => Except.noConfusion h, fun e2 he2 => ?_⟩
    injection he2 with h2
    subst h2
    exact ⟨hmsg, ⟨s1.clock, by rw [herr]⟩, hrec⟩

theorem legalHandleBody_post (resp : Except Exc String) (s : ContractState) :
    LegalHBPost resp s
      (handleBody .legal legalValidateInput (legalProcess resp) s) := by
  rw [handleBody_apply]
  split
  · rw [pyBind_apply]
    rcases hp : legalProcess resp (preludeState .legal s) with ⟨r, s2⟩
    have hpp := legalProcess_post resp (preludeState .legal s)
    rw [hp] at hpp
    unfold LegalProcPost slotBehavior preludeState at hpp
    dsimp only at hpp
    obtain ⟨hst, hmd, hca, hcw, hstat, hlog, hslot, hok, herrc⟩ := hpp
    simp only [hp]
    cases r with
    | ok a =>
      cases a
      obtain ⟨herr, hm, hpo⟩ := hok rfl
      obtain ⟨m, hm1, hm2, hm3, hm4⟩ := hm
      unfold LegalHBPost listsMono slotBehavior okShape
      simp only [logStep, pyBind_apply, tick_apply, modifyS_apply, pyPure_apply]
      refine ⟨hst, hmd, ⟨?_, by rw [herr], ?_⟩, hca, hcw,
        ⟨hslot.1, hslot.2.1, hslot.2.2.1, hslot.2.2.2⟩,
        fun _ => ⟨hstat, herr, hcw, hca, ⟨m, hm1, hm2, hm3, hm4⟩, hpo⟩,
        fun e he => Except.noConfusion he⟩
      · rw [hm1]; exact List.prefix_append _ _
      · exact ((List.prefix_append _ _).trans hlog).trans (List.prefix_append _ _)
    | error e =>
      obtain ⟨hmsg, hrec, hbare⟩ := herrc e rfl
      obtain ⟨t, hterr⟩ := hrec
      unfold LegalHBPost listsMono slotBehavior okShape
      dsimp only
      refine ⟨hst, hmd, ⟨by rw [hmsg], ?_, (List.prefix_append _ _).trans hlog⟩, hca, hcw,
        ⟨hslot.1, hslot.2.1, hslot.2.2.1, hslot.2.2.2⟩,
        fun h => Except.noConfusion h, fun e2 he2 => ?_⟩
      · rw [hterr]; exact List.prefix_append _ _
      · injection he2 with h2; subst h2; exact hbare
  · unfold LegalHBPost listsMono slotBehavior okShape preludeState invalidInputExc
    dsimp only
    exact ⟨rfl, rfl, ⟨List.prefix_rfl, List.prefix_rfl, List.prefix_append _ _⟩, rfl, rfl,
      ⟨rfl, rfl, rfl, Or.inl rfl⟩,
      fun h => Except.noConfusion h,
      fun e2 he2 => by injection he2 with h2; subst h2; exact Or.inl rfl⟩

theorem legalStage_post (resp : Except Exc String) (s : ContractState) :
    StagePost .legal resp s (runStage .legal resp s) := by
  unfold runStage handleProcessing
  dsimp only
  rw [pyTry_apply]
  rcases hb : handleBody .legal legalValidateInput (legalProcess resp) s with ⟨r, s1⟩
  have hhb := legalHandleBody_post resp s
  rw [hb] at hhb
  unfold LegalHBPost listsMono slotBehavior at hhb
  dsimp only at hhb
  obtain ⟨hst, hmd, ⟨hm, he, hl⟩, hca, hcw, hslot, hok, herrc⟩ := hhb
  simp only [hb]
  cases r with
  | ok a =>
    cases a
    unfold StagePost listsMono slotBehavior
    dsimp only
    exact ⟨hst, hmd, ⟨hm, he, hl⟩, hslot,
      fun e hce => Except.noConfusion hce, fun _ => hok rfl⟩
  | error e =>
    simp only [handleFail, addError, pyBind_apply, tick_apply, modifyS_apply,
      pyRaise_apply, pyPure_apply, Option.getD]
    unfold StagePost listsMono slotBehavior okShape
    dsimp only
    refine ⟨hst, hmd, ⟨hm, he.trans (List.prefix_append _ _), hl⟩,
      ⟨hslot.1, hslot.2.1, hslot.2.2.1, hslot.2.2.2⟩, fun e2 he2 => ?_,
      fun h => Except.noConfusion h⟩
    injection he2 with h2
    subst h2
    obtain ⟨pre, hpre⟩ := he
    refine ⟨rfl, hcw, hca, herrc e rfl, pre,
      ⟨s1.clock, AgentType.legal, "Processing failed: " ++ e.msg,
        Json.obj [("exception_type", Json.str e.kind)]⟩, ?_, rfl, rfl⟩
    rw [← hpre]

theorem riskProcessBody_post (resp : Except Exc String) (s : ContractState) :
    RiskBodyPost resp s (riskProcessBody resp s) := by
  unfold RiskBodyPost riskProcessBody riskProcessTail slotBehavior
  simp only [logStep, addError, sendMessage, updateStatus, pyBind_apply, pyPure_apply,
    pyRaise_apply, getS_apply, modifyS_apply, tick_apply, liftExc_apply, pyTry_apply]
  repeat' split
  all_goals simp_all [List.prefix_append, noneSubErr, attrLowerErr, attrNoGetErr, lenErr,
    joinErr, keysErr, sliceErr, fmtErr]

theorem riskProcess_post (resp : Except Exc String) (s : ContractState) :
    RiskProcPost resp s (riskProcess resp s) := by
  unfold riskProcess
  rcases hres : riskProcessBody resp s with ⟨r, s1⟩
  have hb := riskProcessBody_post resp s
  rw [hres] at hb
  rw [pyTry_apply, hres]
  unfold RiskBodyPost slotBehavior at hb
  dsimp only at hb
  obtain ⟨hst, hmd, hca, hcw, herr, hstat, hlog, hslot, hok, herrc⟩ := hb
  cases r with
  | ok a =>
    cases a
    obtain ⟨hm, hpo⟩ := hok rfl
    unfold RiskProcPost slotBehavior
    dsimp only
    exact ⟨hst, hmd, hca, hcw, hstat, hlog, hslot, fun _ => ⟨herr, hm, hpo⟩,
      fun e he => Except.noConfusion he⟩
  | error e =>
    obtain ⟨hmsg, hrec⟩ := herrc e rfl
    simp only [addError, pyBind_apply, tick_apply, modifyS_apply, pyRaise_apply,
      pyPure_apply, Option.getD]
    unfold RiskProcPost slotBehavior
    dsimp only
    refine ⟨hst, hmd, hca, hcw, hstat, hlog,
      ⟨hslot.1, hslot.2.1, hslot.2.2.1, hslot.2.2.2⟩,
      fun h => Except.noConfusion h, fun e2 he2 => ?_⟩
    injection he2 with h2
    subst h2
    exact ⟨hmsg, ⟨s1.clock, by rw [herr]⟩, hrec⟩

theorem riskHandleBody_post (resp : Except Exc String) (s : ContractState) :
    RiskHBPost resp s
      (handleBody .risk riskValidateInput (riskProcess resp) s) := by
  rw [handleBody_apply]
  split
  · rw [pyBind_apply]
    rcases hp : riskProcess resp (preludeState .risk s) with ⟨r, s2⟩
    have hpp := riskProcess_post resp (preludeState .risk s)
    rw [hp] at hpp
    unfold RiskProcPost slotBehavior preludeState at hpp
    dsimp only at hpp
    obtain ⟨hst, hmd, hca, hcw, hstat, hlog, hslot, hok, herrc⟩ := hpp
    simp only [hp]
    cases r with
    | ok a =>
      cases a
      obtain ⟨herr, hm, hpo⟩ := hok rfl
      obtain ⟨m, hm1, hm2, hm3, hm4⟩ := hm
      unfold RiskHBPost listsMono slotBehavior okShape
      simp only [logStep, pyBind_apply, tick_apply, modifyS_apply, pyPure_apply]
      refine ⟨hst, hmd, ⟨?_, by rw [herr], ?_⟩, hca, hcw,
        ⟨hslot.1, hslot.2.1, hslot.2.2.1, hslot.2.2.2⟩,
        fun _ => ⟨hstat, herr, hcw, hca, ⟨m, hm1, hm2, hm3, hm4⟩, hpo⟩,
        fun e he => Except.noConfusion he⟩
      · rw [hm1]; exact List.prefix_append _ _
      · exact ((List.prefix_append _ _).trans hlog).trans (List.prefix_append _ _)
    | error e =>
      obtain ⟨hmsg, hrec, hbare⟩ := herrc e rfl
      obtain ⟨t, hterr⟩ := hrec
      unfold RiskHBPost listsMono slotBehavior okShape
      dsimp only
      refine ⟨hst, hmd, ⟨by rw [hmsg], ?_, (List.prefix_append _ _).trans hlog⟩, hca, hcw,
        ⟨hslot.1, hslot.2.1, hslot.2.2.1, hslot.2.2.2⟩,
        fun h => Except.noConfusion h, fun e2 he2 => ?_⟩
      · rw [hterr]; exact List.prefix_append _ _
      · injection he2 with h2; subst h2; exact hbare
  · unfold RiskHBPost listsMono slotBehavior okShape preludeState invalidInputExc
    dsimp only
    exact ⟨rfl, rfl, ⟨List.prefix_rfl, List.prefix_rfl, List.prefix_append _ _⟩, rfl, rfl,
      ⟨rfl, rfl, rfl, Or.inl rfl⟩,
      fun h => Except.noConfusion h,
      fun e2 he2 => by injection he2 with h2; subst h2; exact Or.inl rfl⟩

theorem riskStage_post (resp : Except Exc String) (s : ContractState) :
    StagePost .risk resp s (runStage .risk resp s) := by
  unfold runStage handleProcessing
  dsimp only
  rw [pyTry_apply]
  rcases hb : handleBody .risk riskValidateInput (riskProcess resp) s with ⟨r, s1⟩
  have hhb := riskHandleBody_post resp s
  rw [hb] at hhb
  unfold RiskHBPost listsMono slotBehavior at hhb
  dsimp only at hhb
  obtain ⟨hst, hmd, ⟨hm, he, hl⟩, hca, hcw, hslot, hok, herrc⟩ := hhb
  simp only [hb]
  cases r with
  | ok a =>
    cases a
    unfold StagePost listsMono slotBehavior
    dsimp only
    exact ⟨hst, hmd, ⟨hm, he, hl⟩, hslot,
      fun e hce => Except.noConfusion hce, fun _ => hok rfl⟩
  | error e =>
    simp only [handleFail, addError, pyBind_apply, tick_apply, modifyS_apply,
      pyRaise_apply, pyPure_apply, Option.getD]
    unfold StagePost listsMono slotBehavior okShape
    dsimp only
    refine ⟨hst, hmd, ⟨hm, he.trans (List.prefix_append _ _), hl⟩,
      ⟨hslot.1, hslot.2.1, hslot.2.2.1, hslot.2.2.2⟩, fun e2 he2 => ?_,
      fun h => Except.noConfusion h⟩
    injection he2 with h2
    subst h2
    obtain ⟨pre, hpre⟩ := he
    refine ⟨rfl, hcw, hca, herrc e rfl, pre,
      ⟨s1.clock, AgentType.risk, "Processing failed: " ++ e.msg,
        Json.obj [("exception_type", Json.str e.kind)]⟩, ?_, rfl, rfl⟩
    rw [← hpre]

set_option maxHeartbeats 2000000 in
theorem synthesizeReportBody_post (resp : Except Exc String) (s : ContractState) :
    SynthBodyPost resp s (synthesizeReportBody resp s) := by
  unfold SynthBodyPost synthesizeReportBody buildSynthesisContext writeCompletedAt
  simp only [logStep, addError, sendMessage, updateStatus, pyBind_apply, pyPure_apply,
    pyRaise_apply, getS_apply, modifyS_apply, tick_apply, liftExc_apply, pyTry_apply]
  repeat' split
  all_goals try simp_all [List.prefix_append, noneSubErr, attrLowerErr, attrNoGetErr, lenErr,
    joinErr, keysErr, sliceErr, fmtErr]
  all_goals subst_vars
  all_goals exact Or.inl rfl

theorem synthesizeReport_post (resp : Except Exc String) (s : ContractState) :
    SynthPost resp s (synthesizeReport resp s) := by
  unfold synthesizeReport
  rcases hres : synthesizeReportBody resp s with ⟨r, s1⟩
  have hb := synthesizeReportBody_post resp s
  rw [hres] at hb
  rw [pyTry_apply, hres]
  unfold SynthBodyPost at hb
  dsimp only at hb
  obtain ⟨hst, hmd, herr, hpo, hla, hra, hlog, hok, herrc⟩ := hb
  cases r with
  | ok a =>
    cases a
    obtain ⟨h1, h2, h3, h4, h5, h6, h7, h8⟩ := hok rfl
    unfold SynthPost
    dsimp only
    exact ⟨hst, hmd, hpo, hla, hra, hlog, by rw [herr],
      fun _ => ⟨h1, h2, h3, h4, herr, h5, h6, h7, h8⟩,
      fun e he => Except.noConfusion he⟩
  | error e =>
    obtain ⟨h1, h2, h3, h4, h5, h6⟩ := herrc e rfl
    simp only [addError, pyBind_apply, tick_apply, modifyS_apply, pyRaise_apply,
      pyPure_apply, Option.getD]
    unfold SynthPost
    dsimp only
    refine ⟨hst, hmd, hpo, hla, hra, hlog, ?_,
      fun h => Except.noConfusion h, fun e2 he2 => ?_⟩
    · rw [herr]; exact List.prefix_append _ _
    · injection he2 with h7
      subst h7
      exact ⟨h1, h2, h3, h4, h5, h6⟩

theorem coordProcess_post (resp : Except Exc String) (s : ContractState) :
    CoordProcPost resp s (coordProcess resp s) := by
  unfold coordProcess
  simp only [pyBind_apply, getS_apply, logStep_apply, pyPure_apply, ite_apply]
  split
  · -- all three outputs available: synthesize
    rename_i hguard
    simp only [logStep_apply, pyBind_apply, pyPure_apply]
    rcases hsr : synthesizeReport resp
        (logState .coordinator "All agent outputs available, synthesizing final report" s)
      with ⟨r, s2⟩
    have hsp := synthesizeReport_post resp
      (logState .coordinator "All agent outputs available, synthesizing final report" s)
    rw [hsr] at hsp
    unfold SynthPost logState at hsp
    dsimp only at hsp
    obtain ⟨hst, hmd, hpo, hla, hra, hlog, herrp, hok, herrc⟩ := hsp
    try simp only [hsr]
    cases r with
    | ok a =>
      cases a
      obtain ⟨h1, h2, h3, h4, h5, h6, h7, h8, h9⟩ := hok rfl
      unfold CoordProcPost okShape
      dsimp only
      obtain ⟨m, hm, hm2, hm3, hm4⟩ := h9
      refine ⟨hst, hmd, hpo, hla, hra,
        (List.prefix_append _ _).trans hlog, herrp, ?_,
        fun _ => ⟨⟨fun _ => ⟨h1, h5, h2, h3, h4, ⟨m, hm, hm2, hm3, hm4⟩⟩, fun hg => ?_⟩,
          Or.inr h4⟩,
        fun e he => Except.noConfusion he⟩
      · rw [hm]; exact List.prefix_append _ _
      · rw [hguard] at hg
        exact absurd hg (by simp)
    | error e =>
      obtain ⟨h1, h2, h3, h4, h5, h6⟩ := herrc e rfl
      unfold CoordProcPost
      dsimp only
      exact ⟨hst, hmd, hpo, hla, hra, (List.prefix_append _ _).trans hlog, herrp,
        by rw [h5], fun h => Except.noConfusion h,
        fun e2 he2 => by injection he2 with h7; subst h7; exact ⟨h1, h2, h3, h4, h6⟩⟩
  · -- some output missing: log the current status, state otherwise unchanged
    rename_i hguard
    simp only [logStep_apply, pyBind_apply, pyPure_apply]
    unfold CoordProcPost okShape logState
    dsimp only
    refine ⟨rfl, rfl, rfl, rfl, rfl, List.prefix_append _ _, List.prefix_rfl,
      List.prefix_rfl,
      fun _ => ⟨⟨fun hg => ?_, fun _ => ⟨rfl, rfl, rfl, rfl, rfl, rfl⟩⟩, Or.inl rfl⟩,
      fun e he => Except.noConfusion he⟩
    exact absurd hg (by simp_all)

theorem coordHandleBody_post (resp : Except Exc String) (s : ContractState) :
    CoordHBPost resp s
      (handleBody .coordinator coordValidateInput (coordProcess resp) s) := by
  rw [handleBody_apply]
  split
  · rw [pyBind_apply]
    rcases hp : coordProcess resp (preludeState .coordinator s) with ⟨r, s2⟩
    have hpp := coordProcess_post resp (preludeState .coordinator s)
    rw [hp] at hpp
    unfold CoordProcPost okShape preludeState at hpp
    dsimp only at hpp
    obtain ⟨hst, hmd, hpo, hla, hra, hlog, herrp, hmsgp, hok, herrc⟩ := hpp
    simp only [hp]
    cases r with
    | ok a =>
      cases a
      obtain ⟨⟨hgt, hgf⟩, hfr⟩ := hok rfl
      unfold CoordHBPost listsMono slotBehavior okShape
      simp only [logStep_apply, pyBind_apply, pyPure_apply]
      unfold logState
      dsimp only
      refine ⟨hst, hmd, ⟨hmsgp, herrp, ?_⟩, ⟨hpo, hla, hra, ?_⟩,
        fun _ => ⟨?_, ?_⟩, fun e he => Except.noConfusion he⟩
      · exact ((List.prefix_append _ _).trans hlog).trans (List.prefix_append _ _)
      · rcases Bool.eq_false_or_eq_true
            (s.parser_output.isSome && s.legal_analysis.isSome &&
              s.risk_assessment.isSome) with hg | hg
        · rcases hfr with h | h
          · exact Or.inl h
          · refine Or.inr ⟨h, ?_⟩
            simp only [Bool.and_eq_true] at hg
            exact ⟨hg.1.1, hg.1.2, hg.2⟩
        · obtain ⟨_, _, _, _, _, hfix⟩ := hgf hg
          exact Or.inl hfix
      · intro hg
        obtain ⟨h1, h2, h3, h4, h5, h6⟩ := hgt hg
        obtain ⟨m, hm, hm2, hm3, hm4⟩ := h6
        exact ⟨h1, h2, h3, h4, h5, ⟨m, by rw [hm], hm2, hm3, hm4⟩⟩
      · intro hg
        exact hgf hg
    | error e =>
      obtain ⟨h1, h2, h3, h4, h5⟩ := herrc e rfl
      unfold CoordHBPost listsMono slotBehavior okShape
      dsimp only
      exact ⟨hst, hmd, ⟨hmsgp, herrp, (List.prefix_append _ _).trans hlog⟩,
        ⟨hpo, hla, hra, Or.inl h4⟩,
        fun h => Except.noConfusion h,
        fun e2 he2 => by injection he2 with h7; subst h7; exact ⟨h2, h3, h5⟩⟩
  · rename_i hv
    exact absurd rfl hv

theorem coordStage_post (resp : Except Exc String) (s : ContractState) :
    StagePost .coordinator resp s (runStage .coordinator resp s) := by
  unfold runStage handleProcessing
  dsimp only
  rw [pyTry_apply]
  rcases hb : handleBody .coordinator coordValidateInput (coordProcess resp) s with ⟨r, s1⟩
  have hhb := coordHandleBody_post resp s
  rw [hb] at hhb
  unfold CoordHBPost listsMono slotBehavior at hhb
  dsimp only at hhb
  obtain ⟨hst, hmd, ⟨hm, he, hl⟩, hslot, hok, herrc⟩ := hhb
  simp only [hb]
  cases r with
  | ok a =>
    cases a
    unfold StagePost listsMono slotBehavior
    dsimp only
    exact ⟨hst, hmd, ⟨hm, he, hl⟩, hslot,
      fun e hce => Except.noConfusion hce, fun _ => hok rfl⟩
  | error e =>
    obtain ⟨hcw, hca, hrec⟩ := herrc e rfl
    simp only [handleFail, addError, pyBind_apply, tick_apply, modifyS_apply,
      pyRaise_apply, pyPure_apply, Option.getD]
    unfold StagePost listsMono slotBehavior okShape
    dsimp only
    refine ⟨hst, hmd, ⟨hm, he.trans (List.prefix_append _ _), hl⟩,
      ⟨hslot.1, hslot.2.1, hslot.2.2.1, hslot.2.2.2⟩, fun e2 he2 => ?_,
      fun h => Except.noConfusion h⟩
    injection he2 with h2
    subst h2
    obtain ⟨pre, hpre⟩ := he
    refine ⟨rfl, hcw, hca, hrec, pre,
      ⟨s1.clock, AgentType.coordinator, "Processing failed: " ++ e.msg,
        Json.obj [("exception_type", Json.str e.kind)]⟩, ?_, rfl, rfl⟩
    rw [← hpre]

/-- The four stage characterisations, dispatched on the agent. -/
theorem stagePost_all (a : AgentType) (resp : Except Exc String) (s : ContractState) :
    StagePost a resp s (runStage a resp s) := by
  cases a
  · exact coordStage_post resp s
  · exact parserStage_post resp s
  · exact legalStage_post resp s
  · exact riskStage_post resp s

@[simp]
theorem writeCompletedAt_apply (s : ContractState) :
    writeCompletedAt s =
      (Except.ok (), { s with
        clock := s.clock + 1
        completed_at := some s.clock
        completedAtWrites := s.completedAtWrites + 1 }) := by
  unfold writeCompletedAt
  simp only [pyBind_apply, tick_apply, modifyS_apply]

theorem checkNotFailed_ok (msg : String) (s : ContractState)
    (h : ¬ s.status = ProcessingStatus.failed) :
    checkNotFailed msg s = (Except.ok (), s) := by
  unfold checkNotFailed
  simp only [pyBind_apply, getS_apply]
  rw [if_neg h]
  rfl

/-- The parser `logger.success` hazard leaves the state unchanged and any
exception it raises is bare. -/
theorem parserLenLog_spec (s : ContractState) :
    (parserLenLog s).2 = s ∧
      ∀ e, (parserLenLog s).1 = Except.error e → e.records = [] := by
  unfold parserLenLog
  simp only [pyBind_apply, getS_apply, liftExc_apply, pyPure_apply]
  repeat' split
  all_goals simp_all [noneSubErr, lenErr]

/-- The legal `logger.success` hazard leaves the state unchanged and any
exception it raises is bare. -/
theorem legalLenLog_spec (s : ContractState) :
    (legalLenLog s).2 = s ∧
      ∀ e, (legalLenLog s).1 = Except.error e → e.records = [] := by
  unfold legalLenLog
  simp only [pyBind_apply, getS_apply, liftExc_apply, pyPure_apply]
  repeat' split
  all_goals simp_all [noneSubErr, lenErr]

/-- The risk `logger.success` hazard leaves the state unchanged and any
exception it raises is bare. -/
theorem riskSubLog_spec (s : ContractState) :
    (riskSubLog s).2 = s ∧
      ∀ e, (riskSubLog s).1 = Except.error e → e.records = [] := by
  unfold riskSubLog
  simp only [pyBind_apply, getS_apply, liftExc_apply, pyPure_apply]
  repeat' split
  all_goals simp_all [noneSubErr]

/-- The final `logger.success` hazard leaves the state unchanged and any
exception it raises is bare. -/
theorem finalSubLog_spec (s : ContractState) :
    (finalSubLog s).2 = s ∧
      ∀ e, (finalSubLog s).1 = Except.error e → e.records = [] := by
  unfold finalSubLog
  simp only [pyBind_apply, getS_apply, liftExc_apply, pyPure_apply]
  repeat' split
  all_goals simp_all [noneSubErr]

/-- One stage execution preserves the slot dependency invariant. -/
theorem slotInv_step (a : AgentType) (resp : Except Exc String) (s : ContractState)
    (h : SlotInv s) : SlotInv (runStage a resp s).2 := by
  have hp := stagePost_all a resp s
  obtain ⟨-, -, -, hslot, -, -⟩ := hp
  obtain ⟨h1, h2, h3⟩ := h
  cases a
  all_goals {
    unfold slotBehavior at hslot
    dsimp only at hslot
    unfold SlotInv
    obtain ⟨ha, hb, hc, hd⟩ := hslot
    rcases hd with hd | hd <;>
      refine ⟨fun hx => ?_, fun hx => ?_, fun hx => ?_⟩ <;> simp_all
  }

/-- Every run fragment preserves the slot dependency invariant. -/
theorem slotInv_runSteps (steps : List (AgentType × Except Exc String))
    (s : ContractState) (h : SlotInv s) : SlotInv (runSteps steps s) := by
  induction steps generalizing s with
  | nil => exact h
  | cons p rest ih =>
    rcases p with ⟨a, resp⟩
    exact ih _ (slotInv_step a resp s h)

/-- Every run fragment only appends to the message, error and log lists. -/
theorem listsMono_runSteps (steps : List (AgentType × Except Exc String))
    (s : ContractState) : listsMono s (runSteps steps s) := by
  induction steps generalizing s with
  | nil => exact ⟨List.prefix_rfl, List.prefix_rfl, List.prefix_rfl⟩
  | cons p rest ih =>
    rcases p with ⟨a, resp⟩
    have hp := stagePost_all a resp s
    obtain ⟨-, -, hmono, -, -, -⟩ := hp
    obtain ⟨hm, he, hl⟩ := hmono
    obtain ⟨hm2, he2, hl2⟩ := ih (runStage a resp s).2
    exact ⟨hm.trans hm2, he.trans he2, hl.trans hl2⟩

theorem finalSubLog_ok (s : ContractState) (h : s.final_report.isSome = true) :
    finalSubLog s = (Except.ok (), s) := by
  obtain ⟨fr, hfr⟩ := Option.isSome_iff_exists.mp h
  unfold finalSubLog
  simp [hfr]

theorem analyzeSteps_post (oracle : AgentType → Except Exc String)
    (cid fn : String) (fs : ℤ) (ui : Option String) (pl : String) :
    StepsPost oracle (analyzeSteps oracle (createInitialState cid fn fs ui pl)) := by
  unfold analyzeSteps
  rcases h1 : runStage .parser (oracle .parser) (createInitialState cid fn fs ui pl)
    with ⟨r1, sA⟩
  have hp1 := parserStage_post (oracle .parser) (createInitialState cid fn fs ui pl)
  rw [h1] at hp1
  unfold StagePost at hp1
  dsimp only at hp1
  obtain ⟨hssA, hmdA, hmonoA, hslotA, herrcA, hokA⟩ := hp1
  rw [pyBind_apply, h1]
  dsimp only
  cases r1 with
  | error e =>
    obtain ⟨hstF, hwF, hcaF, hrecF, -⟩ := herrcA e rfl
    refine ⟨fun h => Except.noConfusion h, fun e2 he2 => ?_⟩
    injection he2 with h2
    subst h2
    refine ⟨hwF.trans rfl, hcaF.trans rfl, ?_, ?_, fun hb => ?_⟩
    · rw [hssA]; exact ⟨[.legal, .risk, .coordinator], rfl⟩
    · rw [hssA]; simp
    · rcases hrecF with h | h
      · exact h
      · exact hb _ e h
  | ok a =>
    cases a
    obtain ⟨hstA, herrA, hwA, hcaA, hmsgA, hpoA⟩ := hokA rfl
    rw [pyBind_apply, checkNotFailed_ok "Parser agent failed" sA (by simp [hstA])]
    dsimp only
    rcases h2 : parserLenLog sA with ⟨r2, sA2⟩
    have hsp2 := parserLenLog_spec sA
    rw [h2] at hsp2
    dsimp only at hsp2
    obtain ⟨heq2, hrec2⟩ := hsp2
    subst sA2
    rw [pyBind_apply, h2]
    dsimp only
    cases r2 with
    | error e =>
      refine ⟨fun h => Except.noConfusion h, fun e2 he2 => ?_⟩
      injection he2 with h2e
      subst h2e
      refine ⟨hwA.trans rfl, hcaA.trans rfl, ?_, ?_, fun _ => hrec2 e rfl⟩
      · rw [hssA]; exact ⟨[.legal, .risk, .coordinator], rfl⟩
      · rw [hssA]; simp
    | ok a =>
      cases a
      rcases h3 : runStage .legal (oracle .legal) sA with ⟨r3, sB⟩
      have hp3 := legalStage_post (oracle .legal) sA
      rw [h3] at hp3
      unfold StagePost at hp3
      dsimp only at hp3
      obtain ⟨hssB, hmdB, hmonoB, hslotB, herrcB, hokB⟩ := hp3
      obtain ⟨hBp, hBr, hBf, hBl⟩ := hslotB
      rw [pyBind_apply, h3]
      dsimp only
      cases r3 with
      | error e =>
        obtain ⟨hstF, hwF, hcaF, hrecF, -⟩ := herrcB e rfl
        refine ⟨fun h => Except.noConfusion h, fun e2 he2 => ?_⟩
        injection he2 with h2e
        subst h2e
        refine ⟨hwF.trans (hwA.trans rfl), hcaF.trans (hcaA.trans rfl), ?_, ?_, fun hb => ?_⟩
        · rw [hssB, hssA]; exact ⟨[.risk, .coordinator], rfl⟩
        · rw [hssB, hssA]; simp
        · rcases hrecF with h | h
          · exact h
          · exact hb _ e h
      | ok a =>
        cases a
        obtain ⟨hstB, herrB, hwB, hcaB, hmsgB, hlaB⟩ := hokB rfl
        rw [pyBind_apply, checkNotFailed_ok "Legal agent failed" sB (by simp [hstB])]
        dsimp only
        rcases h4 : legalLenLog sB with ⟨r4, sB2⟩
        have hsp4 := legalLenLog_spec sB
        rw [h4] at hsp4
        dsimp only at hsp4
        obtain ⟨heq4, hrec4⟩ := hsp4
        subst sB2
        rw [pyBind_apply, h4]
        dsimp only
        cases r4 with
        | error e =>
          refine ⟨fun h => Except.noConfusion h, fun e2 he2 => ?_⟩
          injection he2 with h2e
          subst h2e
          refine ⟨hwB.trans (hwA.trans rfl), hcaB.trans (hcaA.trans rfl), ?_, ?_,
            fun _ => hrec4 e rfl⟩
          · rw [hssB, hssA]; exact ⟨[.risk, .coordinator], rfl⟩
          · rw [hssB, hssA]; simp
        | ok a =>
          cases a
          rcases h5 : runStage .risk (oracle .risk) sB with ⟨r5, sC⟩
          have hp5 := riskStage_post (oracle .risk) sB
          rw [h5] at hp5
          unfold StagePost at hp5
          dsimp only at hp5
          obtain ⟨hssC, hmdC, hmonoC, hslotC, herrcC, hokC⟩ := hp5
          obtain ⟨hCp, hCl, hCf, hCr⟩ := hslotC
          rw [pyBind_apply, h5]
          dsimp only
          cases r5 with
          | error e =>
            obtain ⟨hstF, hwF, hcaF, hrecF, -⟩ := herrcC e rfl
            refine ⟨fun h => Except.noConfusion h, fun e2 he2 => ?_⟩
            injection he2 with h2e
            subst h2e
            refine ⟨hwF.trans (hwB.trans (hwA.trans rfl)),
              hcaF.trans (hcaB.trans (hcaA.trans rfl)), ?_, ?_, fun hb => ?_⟩
            · rw [hssC, hssB, hssA]; exact ⟨[.coordinator], rfl⟩
            · rw [hssC, hssB, hssA]; simp
            · rcases hrecF with h | h
              · exact h
              · exact hb _ e h
          | ok a =>
            cases a
            obtain ⟨hstC, herrC, hwC, hcaC, hmsgC, hraC⟩ := hokC rfl
            rw [pyBind_apply, checkNotFailed_ok "Risk agent failed" sC (by simp [hstC])]
            dsimp only
            rcases h6 : riskSubLog sC with ⟨r6, sC2⟩
            have hsp6 := riskSubLog_spec sC
            rw [h6] at hsp6
            dsimp only at hsp6
            obtain ⟨heq6, hrec6⟩ := hsp6
            subst sC2
            rw [pyBind_apply, h6]
            dsimp only
            cases r6 with
            | error e =>
              refine ⟨fun h => Except.noConfusion h, fun e2 he2 => ?_⟩
              injection he2 with h2e
              subst h2e
              refine ⟨hwC.trans (hwB.trans (hwA.trans rfl)),
                hcaC.trans (hcaB.trans (hcaA.trans rfl)), ?_, ?_,
                fun _ => hrec6 e rfl⟩
              · rw [hssC, hssB, hssA]; exact ⟨[.coordinator], rfl⟩
              · rw [hssC, hssB, hssA]; simp
            | ok a =>
              cases a
              have hguard : (sC.parser_output.isSome && sC.legal_analysis.isSome &&
                  sC.risk_assessment.isSome) = true := by
                obtain ⟨md, fn2, po, _, _, hpo, _⟩ := hpoA
                rw [hCp, hBp, hpo, hCl]
                simp [hlaB, hraC]
              rcases h7 : runStage .coordinator (oracle .coordinator) sC with ⟨r7, sD⟩
              have hp7 := coordStage_post (oracle .coordinator) sC
              rw [h7] at hp7
              unfold StagePost at hp7
              dsimp only at hp7
              obtain ⟨hssD, hmdD, hmonoD, hslotD, herrcD, hokD⟩ := hp7
              rw [pyBind_apply, h7]
              dsimp only
              cases r7 with
              | error e =>
                obtain ⟨hstF, hwF, hcaF, hrecF, -⟩ := herrcD e rfl
                refine ⟨fun h => Except.noConfusion h, fun e2 he2 => ?_⟩
                injection he2 with h2e
                subst h2e
                refine ⟨hwF.trans (hwC.trans (hwB.trans (hwA.trans rfl))),
                  hcaF.trans (hcaC.trans (hcaB.trans (hcaA.trans rfl))), ?_, ?_,
                  fun hb => ?_⟩
                · rw [hssD, hssC, hssB, hssA]; exact List.prefix_rfl
                · rw [hssD, hssC, hssB, hssA]; simp
                · rcases hrecF with h | h
                  · exact h
                  · exact hb _ e h
              | ok a =>
                cases a
                obtain ⟨hgt, hgf⟩ := hokD rfl
                obtain ⟨hstD, herrD, hwD, hcaD, hfrD, hmsgD⟩ := hgt hguard
                rw [pyBind_apply,
                  checkNotFailed_ok "Coordinator agent failed" sD (by simp [hstD])]
                dsimp only
                rw [pyBind_apply, writeCompletedAt_apply]
                dsimp only
                rw [finalSubLog_ok _ (by dsimp only; exact hfrD)]
                refine ⟨fun _ => ?_, fun e he => Except.noConfusion he⟩
                obtain ⟨m1, hm1, hm1f, _, _⟩ := hmsgA
                obtain ⟨m2, hm2, hm2f, _, _⟩ := hmsgB
                obtain ⟨m3, hm3, hm3f, _, _⟩ := hmsgC
                obtain ⟨m4, hm4, hm4f, _, _⟩ := hmsgD
                refine ⟨hstD, ?_, rfl, ?_, ?_, ?_, hfrD⟩
                · dsimp only
                  rw [hwD, hwC, hwB, hwA]
                  rfl
                · dsimp only
                  rw [herrD, herrC, herrB, herrA]
                  rfl
                · dsimp only
                  rw [hssD, hssC, hssB, hssA]
                  rfl
                · dsimp only
                  rw [hm4, hm3, hm2, hm1]
                  simp [hm1f, hm2f, hm3f, hm4f, stageOrder, createInitialState]

theorem analyzeContractFull_post (oracle : AgentType → Except Exc String)
    (cid fn : String) (fs : ℤ) (ui : Option String) (pl : String) :
    PipelinePost oracle (analyzeContractFull oracle cid fn fs ui pl) := by
  unfold analyzeContractFull analyzeBody
  rw [pyTry_apply]
  rcases hb : analyzeSteps oracle (createInitialState cid fn fs ui pl) with ⟨r, s1⟩
  have hs := analyzeSteps_post oracle cid fn fs ui pl
  rw [hb] at hs
  unfold StepsPost at hs
  dsimp only at hs
  obtain ⟨hok, herr⟩ := hs
  dsimp only
  cases r with
  | ok a =>
    cases a
    exact ⟨fun _ => hok rfl, fun e he => Except.noConfusion he⟩
  | error e =>
    obtain ⟨hw, hca, hss, hne, hrec⟩ := herr e rfl
    unfold analyzeCatch
    simp only [pyBind_apply, modifyS_apply, writeCompletedAt_apply, pyRaise_apply]
    refine ⟨fun h => Except.noConfusion h, fun e2 he2 => ?_⟩
    injection he2 with h2
    subst h2
    exact ⟨rfl, by dsimp only; rw [hw], rfl, hss, hne, hrec⟩

theorem parseCrewResult_unparseable (fb : String → Json) (t : String)
    (h : Unparseable t) : parseCrewResult fb t = fb t := by
  obtain ⟨h1, h2, h3⟩ := h
  unfold parseCrewResult
  rw [h1, h2, h3]

theorem riskProcessBody_congr (t1 t2 : String)
    (h1 : Unparseable t1) (h2 : Unparseable t2) :
    riskProcessBody (Except.ok t1) = riskProcessBody (Except.ok t2) := by
  have key : ∀ t : String,
      parseCrewResult (fun _ => riskFallbackJson) t = riskFallbackJson →
      (liftExc (Except.ok t) >>= fun result =>
        riskProcessTail (parseCrewResult (fun _ => riskFallbackJson) result)) =
      riskProcessTail riskFallbackJson := by
    intro t ht
    funext s
    rw [pyBind_apply, liftExc_apply]
    dsimp only
    rw [ht]
  unfold riskProcessBody
  rw [key t1 (parseCrewResult_unparseable _ t1 h1),
    key t2 (parseCrewResult_unparseable _ t2 h2)]

theorem runStage_risk_congr (t1 t2 : String)
    (h1 : Unparseable t1) (h2 : Unparseable t2) :
    runStage .risk (Except.ok t1) = runStage .risk (Except.ok t2) := by
  unfold runStage
  dsimp only
  unfold handleProcessing riskProcess
  rw [riskProcessBody_congr t1 t2 h1 h2]

theorem analyzeSteps_congr (o1 o2 : AgentType → Except Exc String)
    (h : ∀ a, runStage a (o1 a) = runStage a (o2 a)) :
    analyzeSteps o1 = analyzeSteps o2 := by
  unfold analyzeSteps
  rw [h .parser, h .legal, h .risk, h .coordinator]

theorem analyzeContractFull_congr (o1 o2 : AgentType → Except Exc String)
    (h : ∀ a, runStage a (o1 a) = runStage a (o2 a))
    (cid fn : String) (fs : ℤ) (ui : Option String) (pl : String) :
    analyzeContractFull o1 cid fn fs ui pl = analyzeContractFull o2 cid fn fs ui pl := by
  unfold analyzeContractFull analyzeBody
  rw [analyzeSteps_congr o1 o2 h]

theorem c4_run_reduces (rtext : String) (h : Unparseable rtext) :
    analyzeContractFull (c4Oracle rtext) "c1" "contract.txt" 100 none "medium" =
      analyzeContractFull (c4Oracle c4Doc) "c1" "contract.txt" 100 none "medium" := by
  apply analyzeContractFull_congr
  intro a
  cases a
  · rfl
  · rfl
  · rfl
  · exact runStage_risk_congr rtext c4Doc h ⟨rfl, rfl, rfl⟩

/-- C1: amended.  The parser, legal and risk stages do reject a missing
required slot: `validate_input` returns false and `handle_processing`
raises the invalid-input `ValueError`.  The coordinator does not:
`CoordinatorAgent.validate_input` returns `True` unconditionally, so no
invalid-input error is raised even when all three prior outputs are
`None`. -/
theorem c1_input_validation (resp : Except Exc String) (s : ContractState) :
    (s.contract_metadata = none →
      parserValidateInput s = false ∧
      (runStage .parser resp s).1 = Except.error (invalidInputExc .parser)) ∧
    (s.parser_output = none →
      legalValidateInput s = false ∧
      (runStage .legal resp s).1 = Except.error (invalidInputExc .legal)) ∧
    (s.legal_analysis = none →
      riskValidateInput s = false ∧
      (runStage .risk resp s).1 = Except.error (invalidInputExc .risk)) ∧
    coordValidateInput s = true := by
  refine ⟨fun h => ⟨by simp [parserValidateInput, h], ?_⟩,
    fun h => ⟨by simp [legalValidateInput, h], ?_⟩,
    fun h => ⟨by simp [riskValidateInput, h], ?_⟩, rfl⟩
  · unfold runStage handleProcessing
    dsimp only
    rw [pyTry_apply, handleBody_apply]
    rw [if_neg (by simp [parserValidateInput, preludeState, h])]
    dsimp only
    simp [handleFail, addError, pyBind_apply, tick_apply, modifyS_apply, pyRaise_apply]
  · unfold runStage handleProcessing
    dsimp only
    rw [pyTry_apply, handleBody_apply]
    rw [if_neg (by simp [legalValidateInput, preludeState, h])]
    dsimp only
    simp [handleFail, addError, pyBind_apply, tick_apply, modifyS_apply, pyRaise_apply]
  · unfold runStage handleProcessing
    dsimp only
    rw [pyTry_apply, handleBody_apply]
    rw [if_neg (by simp [riskValidateInput, preludeState, h])]
    dsimp only
    simp [handleFail, addError, pyBind_apply, tick_apply, modifyS_apply, pyRaise_apply]

theorem c1_input_validation_witness :
    ({ createInitialState "c1" "contract.txt" 100 none "medium" with
        contract_metadata := none } : ContractState).contract_metadata = none ∧
    parserValidateInput { createInitialState "c1" "contract.txt" 100 none "medium" with
        contract_metadata := none } = false ∧
    (runStage .parser (Except.ok benignResp)
      { createInitialState "c1" "contract.txt" 100 none "medium" with
        contract_metadata := none }).1 = Except.error (invalidInputExc .parser) := by
  refine ⟨rfl, ?_, ?_⟩
  · exact ((c1_input_validation (Except.ok benignResp)
      { createInitialState "c1" "contract.txt" 100 none "medium" with
        contract_metadata := none }).1 rfl).1
  · exact ((c1_input_validation (Except.ok benignResp)
      { createInitialState "c1" "contract.txt" 100 none "medium" with
        contract_metadata := none }).1 rfl).2

/-- C1: counterexample to the original claim for the coordinator stage.
On the freshly created state all three prior outputs are `None`, yet the
coordinator validates successfully and `handle_processing` completes
without raising: it logs the current status and returns. -/
theorem c1_coordinator_counterexample :
    (createInitialState "c1" "contract.txt" 100 none "medium").parser_output = none ∧
    (createInitialState "c1" "contract.txt" 100 none "medium").legal_analysis = none ∧
    (createInitialState "c1" "contract.txt" 100 none "medium").risk_assessment = none ∧
    coordValidateInput (createInitialState "c1" "contract.txt" 100 none "medium") = true ∧
    (runStage .coordinator (Except.ok benignResp)
      (createInitialState "c1" "contract.txt" 100 none "medium")).1 = Except.ok () := by
  exact ⟨rfl, rfl, rfl, rfl, rfl⟩

/-- C2: amended.  When a stage fails, the driver aborts the loop
immediately: the started stages form a prefix of the fixed order, the
final internal state is `failed`, and the ORIGINAL stage exception is
re-raised to the caller.  Contrary to the spec, the re-raised exception
carries no accumulated error records (those live only on the discarded
internal state record): whenever every oracle failure is bare, the
escaping exception is bare too. -/
theorem c2_driver_abort (oracle : AgentType → Except Exc String)
    (cid fn : String) (fs : ℤ) (ui : Option String) (pl : String)
    (e : Exc) (s1 : ContractState)
    (hbare : ∀ a e2, oracle a = Except.error e2 → e2.records = [])
    (h : analyzeContractFull oracle cid fn fs ui pl = (Except.error e, s1)) :
    s1.status = ProcessingStatus.failed ∧
    s1.stagesStarted <+: stageOrder ∧
    analyzeContract oracle cid fn fs ui pl = Except.error e ∧
    e.records = [] := by
  have hp := analyzeContractFull_post oracle cid fn fs ui pl
  rw [h] at hp
  obtain ⟨-, herr⟩ := hp
  obtain ⟨hst, -, -, hss, -, hrec⟩ := herr e rfl
  refine ⟨hst, hss, ?_, hrec hbare⟩
  unfold analyzeContract
  rw [h]

theorem c2_driver_abort_witness :
    (analyzeContractFull failLegalOracle "c1" "contract.txt" 100 none "medium").2.status =
      ProcessingStatus.failed ∧
    (analyzeContractFull failLegalOracle "c1" "contract.txt" 100 none
      "medium").2.stagesStarted <+: stageOrder ∧
    analyzeContract failLegalOracle "c1" "contract.txt" 100 none "medium" =
      Except.error boomExc ∧
    boomExc.records = [] :=
  c2_driver_abort failLegalOracle "c1" "contract.txt" 100 none "medium" boomExc
    (analyzeContractFull failLegalOracle "c1" "contract.txt" 100 none "medium").2
    (fun a e2 h => by
      cases a <;> simp_all [failLegalOracle, boomExc]
      subst h
      rfl)
    (by rfl)

/-- C2: counterexample to the original claim.  A failing run whose
internal state has accumulated two error records (the legal agent record
and the `handle_processing` record), while the exception reaching the
caller carries none of them, and the caller receives no state record at
all. -/
theorem c2_counterexample :
    (analyzeContractFull failLegalOracle "c1" "contract.txt" 100 none
      "medium").2.errors.length = 2 ∧
    analyzeContract failLegalOracle "c1" "contract.txt" 100 none "medium" =
      Except.error boomExc ∧
    boomExc.records = [] := by
  exact ⟨rfl, rfl, rfl⟩

/-- C3: amended.  The three strategies are attempted in the specified
order, but a strategy that LOCATES its candidate and fails to parse it
does not fall through to the next strategy: the stage-specific fallback
is used at once.  The implemented coercion therefore agrees with the
specified first-success-wins algorithm exactly when a located fenced
block always parses. -/
theorem c3_coercion_order (fb : String → Json) (t : String)
    (h : ∀ inner, findFencedJson t = some inner → (Json.parse inner).isSome = true) :
    parseCrewResult fb t = coercionSpec fb t := by
  unfold parseCrewResult coercionSpec
  cases hp : Json.parse t with
  | some j => rfl
  | none =>
    cases hf : findFencedJson t with
    | some inner =>
      obtain ⟨j, hj⟩ := Option.isSome_iff_exists.mp (h inner hf)
      dsimp only [Option.bind]
      rw [hj]
      rfl
    | none =>
      cases hb : findBraceSpan t with
      | some span =>
        dsimp only [Option.bind]
        cases hs : Json.parse span with
        | some j => rfl
        | none => rfl
      | none => rfl

theorem c3_coercion_order_witness :
    parseCrewResult parserFallback c3Fenced = coercionSpec parserFallback c3Fenced :=
  c3_coercion_order parserFallback c3Fenced (fun inner h => by
    rw [show findFencedJson c3Fenced = some "\x7b\x7d" from rfl] at h
    injection h with h2
    subst h2
    rfl)

/-- C3: counterexample to the original claim.  On `c3Ex` the implemented
coercion returns the parser fallback (strategy 2 locates the fenced block,
its content fails to parse, and the exception lands in the outer handler),
while the specified algorithm proceeds to strategy 3 and returns the
object parsed from the leading brace span. -/
theorem c3_counterexample :
    parseCrewResult parserFallback c3Ex = parserFallback c3Ex ∧
    coercionSpec parserFallback c3Ex = Json.obj [("x", Json.num 1 0)] ∧
    parseCrewResult parserFallback c3Ex ≠ coercionSpec parserFallback c3Ex := by
  refine ⟨rfl, rfl, fun h => ?_⟩
  have h2 := congrArg (fun j => match j with
    | Json.obj l => l.length
    | _ => 0) h
  revert h2
  decide

/-- C4: confirmed.  For every response text on which all three coercion
strategies fail, the risk stage swallows the parse failure and stores the
documented fallback assessment — overall score 5.0, all four category
scores 5.0, empty critical-risk and compliance lists, and the single
manual-review recommendation — and the end-to-end run (benign other
stages) proceeds to the coordinator and reaches Completed. -/
theorem c4_risk_fallback (rtext : String) (h : Unparseable rtext) :
    parseCrewResult (fun _ => riskFallbackJson) rtext = riskFallbackJson ∧
    (analyzeContractFull (c4Oracle rtext) "c1" "contract.txt" 100 none "medium").1 =
      Except.ok () ∧
    (analyzeContractFull (c4Oracle rtext) "c1" "contract.txt" 100 none
      "medium").2.status = ProcessingStatus.completed ∧
    (analyzeContractFull (c4Oracle rtext) "c1" "contract.txt" 100 none
      "medium").2.risk_assessment = some
      ⟨Json.num 5 0,
       Json.obj
         [ ("financial", Json.obj
             [("score", Json.num 5 0), ("description", Json.str "Unable to assess")])
         , ("legal", Json.obj
             [("score", Json.num 5 0), ("description", Json.str "Unable to assess")])
         , ("operational", Json.obj
             [("score", Json.num 5 0), ("description", Json.str "Unable to assess")])
         , ("compliance", Json.obj
             [("score", Json.num 5 0), ("description", Json.str "Unable to assess")]) ],
       Json.arr [], Json.arr [Json.str "Manual review recommended due to parsing issues"],
       Json.arr []⟩ := by
  rw [c4_run_reduces rtext h]
  exact ⟨parseCrewResult_unparseable _ rtext h, rfl, rfl, rfl⟩

theorem c4_risk_fallback_witness :
    Unparseable c4Doc ∧
    (analyzeContractFull (c4Oracle c4Doc) "c1" "contract.txt" 100 none "medium").1 =
      Except.ok () ∧
    (analyzeContractFull (c4Oracle c4Doc) "c1" "contract.txt" 100 none
      "medium").2.status = ProcessingStatus.completed :=
  ⟨⟨rfl, rfl, rfl⟩,
    (c4_risk_fallback c4Doc ⟨rfl, rfl, rfl⟩).2.1,
    (c4_risk_fallback c4Doc ⟨rfl, rfl, rfl⟩).2.2.1⟩

/-- C5: confirmed.  Whenever a stage execution raises, the stage appends
an error record whose agent field is the stage id and whose message
summarises the exception (`"Processing failed: " ++ msg`), sets the
status to failed, and re-raises the same exception to the driver. -/
theorem c5_stage_failure (a : AgentType) (resp : Except Exc String)
    (s : ContractState) (e : Exc)
    (h : (runStage a resp s).1 = Except.error e) :
    (runStage a resp s).2.status = ProcessingStatus.failed ∧
    ∃ pre rec, (runStage a resp s).2.errors = s.errors ++ pre ++ [rec] ∧
      rec.agent = a ∧ rec.message = "Processing failed: " ++ e.msg := by
  have hp := stagePost_all a resp s
  obtain ⟨-, -, -, -, herr, -⟩ := hp
  obtain ⟨h1, -, -, -, hrec⟩ := herr e h
  exact ⟨h1, hrec⟩

theorem c5_stage_failure_witness :
    (runStage .legal (Except.error boomExc)
      (createInitialState "c1" "contract.txt" 100 none "medium")).1 =
      Except.error (invalidInputExc .legal) ∧
    (runStage .legal (Except.error boomExc)
      (createInitialState "c1" "contract.txt" 100 none "medium")).2.status =
      ProcessingStatus.failed ∧
    ∃ pre rec,
      (runStage .legal (Except.error boomExc)
        (createInitialState "c1" "contract.txt" 100 none "medium")).2.errors =
        (createInitialState "c1" "contract.txt" 100 none "medium").errors ++ pre ++ [rec] ∧
      rec.agent = AgentType.legal ∧
      rec.message = "Processing failed: " ++ (invalidInputExc .legal).msg :=
  ⟨rfl,
    (c5_stage_failure .legal (Except.error boomExc)
      (createInitialState "c1" "contract.txt" 100 none "medium")
      (invalidInputExc .legal) rfl).1,
    (c5_stage_failure .legal (Except.error boomExc)
      (createInitialState "c1" "contract.txt" 100 none "medium")
      (invalidInputExc .legal) rfl).2⟩

/-- C6: confirmed.  In every state reached from a freshly created run
state by any sequence of stage executions, `legal_analysis` is populated
only if `parser_output` is, `risk_assessment` only if `legal_analysis`
is, and `final_report` only if all three prior outputs are. -/
theorem c6_slot_dependencies (steps : List (AgentType × Except Exc String))
    (cid fn : String) (fs : ℤ) (ui : Option String) (pl : String) :
    SlotInv (runSteps steps (createInitialState cid fn fs ui pl)) := by
  apply slotInv_runSteps
  exact ⟨fun h => by simp [createInitialState] at h,
    fun h => by simp [createInitialState] at h,
    fun h => by simp [createInitialState] at h⟩

/-- C8: confirmed.  Across every sequence of stage executions the message,
error and log collections only grow by appending: the original lists are
prefixes of the final ones (so no entry is removed, reordered or altered)
and the combined length never decreases. -/
theorem c8_append_only (steps : List (AgentType × Except Exc String))
    (s : ContractState) :
    listsMono s (runSteps steps s) ∧
    s.messages.length + s.errors.length + s.processing_logs.length ≤
      (runSteps steps s).messages.length + (runSteps steps s).errors.length +
        (runSteps steps s).processing_logs.length := by
  obtain ⟨hm, he, hl⟩ := listsMono_runSteps steps s
  exact ⟨⟨hm, he, hl⟩,
    Nat.add_le_add (Nat.add_le_add hm.length_le he.length_le) hl.length_le⟩

/-- C7: amended.  `completed_at` is always set when the run terminates,
but it is not written exactly once: on a successful run it is written
twice (once by `synthesize_report` when the coordinator completes, and
once more by the orchestrator after the loop), and on a failed run it is
written once by the orchestrator error handler. -/
theorem c7_completed_at_writes (oracle : AgentType → Except Exc String)
    (cid fn : String) (fs : ℤ) (ui : Option String) (pl : String) :
    ((analyzeContractFull oracle cid fn fs ui pl).1 = Except.ok () →
      (analyzeContractFull oracle cid fn fs ui pl).2.completedAtWrites = 2 ∧
      (analyzeContractFull oracle cid fn fs ui pl).2.completed_at.isSome = true) ∧
    (∀ e, (analyzeContractFull oracle cid fn fs ui pl).1 = Except.error e →
      (analyzeContractFull oracle cid fn fs ui pl).2.completedAtWrites = 1 ∧
      (analyzeContractFull oracle cid fn fs ui pl).2.completed_at.isSome = true) := by
  have hp := analyzeContractFull_post oracle cid fn fs ui pl
  obtain ⟨hok, herr⟩ := hp
  refine ⟨fun h => ?_, fun e he => ?_⟩
  · obtain ⟨-, h2, h3, -⟩ := hok h
    exact ⟨h2, h3⟩
  · obtain ⟨-, h2, h3, -⟩ := herr e he
    exact ⟨h2, h3⟩

theorem c7_completed_at_writes_witness :
    (analyzeContractFull benignOracle "c1" "contract.txt" 100 none
      "medium").2.completedAtWrites = 2 ∧
    (analyzeContractFull failLegalOracle "c1" "contract.txt" 100 none
      "medium").2.completedAtWrites = 1 :=
  ⟨((c7_completed_at_writes benignOracle "c1" "contract.txt" 100 none "medium").1
      (by rfl)).1,
   ((c7_completed_at_writes failLegalOracle "c1" "contract.txt" 100 none "medium").2
      boomExc (by rfl)).1⟩

/-- C7: counterexample to the original claim.  A successful run writes
`completed_at` twice, not exactly once: the ghost write counter of the
final state is 2. -/
theorem c7_counterexample :
    (analyzeContractFull benignOracle "c1" "contract.txt" 100 none "medium").1 =
      Except.ok () ∧
    (analyzeContractFull benignOracle "c1" "contract.txt" 100 none
      "medium").2.completedAtWrites = 2 := by
  exact ⟨rfl, rfl⟩

/-- C9: confirmed.  Every run in which all four stages succeed ends with
status Completed, `completed_at` set, exactly one message per stage in
stage order (4 in total), and an empty error list. -/
theorem c9_success_run (oracle : AgentType → Except Exc String)
    (cid fn : String) (fs : ℤ) (ui : Option String) (pl : String)
    (h : (analyzeContractFull oracle cid fn fs ui pl).1 = Except.ok ()) :
    (analyzeContractFull oracle cid fn fs ui pl).2.status =
      ProcessingStatus.completed ∧
    (analyzeContractFull oracle cid fn fs ui pl).2.completed_at.isSome = true ∧
    (analyzeContractFull oracle cid fn fs ui pl).2.messages.map
      AgentMessage.from_agent = stageOrder ∧
    (analyzeContractFull oracle cid fn fs ui pl).2.errors = [] := by
  have hp := analyzeContractFull_post oracle cid fn fs ui pl
  obtain ⟨hok, -⟩ := hp
  obtain ⟨h1, -, h3, h4, -, h6, -⟩ := hok h
  exact ⟨h1, h3, h6, h4⟩

theorem c9_success_run_witness :
    (analyzeContractFull benignOracle "c1" "contract.txt" 100 none "medium").2.status =
      ProcessingStatus.completed ∧
    (analyzeContractFull benignOracle "c1" "contract.txt" 100 none
      "medium").2.completed_at.isSome = true ∧
    (analyzeContractFull benignOracle "c1" "contract.txt" 100 none
      "medium").2.messages.map AgentMessage.from_agent = stageOrder ∧
    (analyzeContractFull benignOracle "c1" "contract.txt" 100 none "medium").2.errors =
      [] :=
  c9_success_run benignOracle "c1" "contract.txt" 100 none "medium" (by rfl)

/-- C10: confirmed.  Whenever the parser stage succeeds, the stored
`raw_text` is a function of the filename alone: it is the built-in NDA
text when the lower-cased filename contains `nda`, and the built-in
service-agreement text otherwise. -/
theorem c10_document_source (resp : Except Exc String) (s : ContractState)
    (h : (runStage .parser resp s).1 = Except.ok ()) :
    ∃ md fn po, s.contract_metadata = some md ∧ md.filename = some fn ∧
      (runStage .parser resp s).2.parser_output = some po ∧
      po.raw_text = getDocumentContent fn ∧
      (strContains (pyLower fn) "nda" = true → po.raw_text = ndaDocText) ∧
      (strContains (pyLower fn) "nda" = false → po.raw_text = serviceDocText) := by
  have hp := parserStage_post resp s
  obtain ⟨-, -, -, -, -, hok⟩ := hp
  obtain ⟨-, -, -, -, -, md, fn, po, h1, h2, h3, h4⟩ := hok h
  refine ⟨md, fn, po, h1, h2, h3, h4, fun hnda => ?_, fun hnda => ?_⟩
  · rw [h4]
    unfold getDocumentContent
    simp [hnda]
  · rw [h4]
    unfold getDocumentContent
    simp [hnda]

theorem c10_document_source_witness :
    ∃ md fn po,
      (createInitialState "c1" "my_NDA.pdf" 100 none "medium").contract_metadata =
        some md ∧
      md.filename = some fn ∧
      (runStage .parser (Except.ok benignResp)
        (createInitialState "c1" "my_NDA.pdf" 100 none "medium")).2.parser_output =
        some po ∧
      po.raw_text = getDocumentContent fn ∧
      (strContains (pyLower fn) "nda" = true → po.raw_text = ndaDocText) ∧
      (strContains (pyLower fn) "nda" = false → po.raw_text = serviceDocText) :=
  c10_document_source (Except.ok benignResp)
    (createInitialState "c1" "my_NDA.pdf" 100 none "medium") (by rfl)
